import Mathlib

/-!
# Sanjeevani Vatika: client-side search experience

A shallow embedding of the search result page (`SearchResults.jsx`), of the result card's text
highlighter (`SearchResultCard.jsx`), of the search box of the navigation bar (`NavBar.jsx`) and
of the form check of `CreateBlog.jsx`, with the properties of the filter/sort pipeline, of the
facets, of the highlighter, of the suggestion dropdown and of `validateForm`.

Modelling conventions.

* JavaScript numbers that carry scores are rationals (`ℚ`): the code compares and subtracts them,
  and on finite numbers the sign of a difference is the sign of the exact difference. The score
  bands multiply the maximum by 0.3, 0.5 and 0.7: these products are double-precision products,
  the exact product rounded to the nearest double, ties to even.
* `NaN` is `none` in an `Option`: an unparsable `createdAt` gives an invalid `Date`, whose
  difference with anything is `NaN`.
* `Array.prototype.sort` is a stable sort driven by the comparator, with a `NaN` comparator result
  read as `+0` (ECMAScript `SortCompare`); it is embedded as a stable insertion sort.
* JavaScript strings are lists of characters; `toLowerCase` and the case folding of the `i` flag
  map the ASCII letters and keep every other character.
* `new RegExp("(" + term + ")", 'gi')` is modelled for terms written with ordinary characters,
  the wildcard `.` and parentheses; the highlighter's result is `none` for a term with any other
  regex syntax character.
* Event handlers are functions from the React state to the state after the handler, paired with
  the navigations they make. Timers, requests and responses are events with a time stamp on a
  record that holds the React state, the pending timers and the awaited requests; a handler that
  changes the state makes the component render again.
-/

namespace Vatika

/-! ## Data model -/

/-- The optional `matchDetails` record of a search result. -/
structure MatchDetails where
  exactPhraseMatch : Bool
  matchesAllWords : Bool
  deriving DecidableEq, Repr

/-- One item of the response of the search endpoint. `createdAt` holds the time value of
`new Date(item.createdAt)` in milliseconds, `none` when the date is invalid. -/
structure SearchResultItem where
  _id : String
  title : String
  author : String
  category : String
  tags : List String
  imageUrl : String
  relevanceScore : ℚ
  matchDetails : Option MatchDetails
  createdAt : Option Int
  deriving DecidableEq

/-- The `filters` state of `SearchResults`. -/
structure FilterCriteria where
  category : String
  author : String
  sortBy : String
  minScore : ℚ
  deriving DecidableEq

/-! ## `Array.prototype.sort` -/

/-- ECMAScript `SortCompare` for a user comparator: the number the comparator returns, with `NaN`
(here `none`) replaced by `+0`. -/
def sortCompare {α : Type} (comparefn : α → α → Option ℚ) (x y : α) : ℚ :=
  match comparefn x y with
  | some v => v
  | none => 0

/-- Insert `x`, which stood before every element of the list, in front of the first element it
does not have to follow. -/
def sortInsert {α : Type} (comparefn : α → α → Option ℚ) (x : α) : List α → List α
  | [] => [x]
  | y :: ys =>
    if sortCompare comparefn x y ≤ 0 then x :: y :: ys
    else y :: sortInsert comparefn x ys

/-- The array after `array.sort(comparefn)`: a stable sort. -/
def arraySort {α : Type} (comparefn : α → α → Option ℚ) : List α → List α
  | [] => []
  | x :: xs => sortInsert comparefn x (arraySort comparefn xs)

/-- The value of `new Date(b.createdAt) - new Date(a.createdAt)`; `none` is `NaN`. -/
def dateDiff (b a : SearchResultItem) : Option ℚ :=
  match b.createdAt, a.createdAt with
  | some tb, some ta => some ((tb : ℚ) - (ta : ℚ))
  | _, _ => none

/-! ## The filter/sort pipeline -/

/-- The list handed to `setFilteredResults` by `applyFilters(results, currentFilters)`. -/
def applyFilters (results : List SearchResultItem) (currentFilters : FilterCriteria) :
    List SearchResultItem :=
  let filtered := results
  let filtered :=
    if currentFilters.minScore > 0 then
      filtered.filter (fun result => decide (result.relevanceScore ≥ currentFilters.minScore))
    else filtered
  let filtered :=
    if currentFilters.category ≠ "all" then
      filtered.filter (fun result => decide (result.category = currentFilters.category))
    else filtered
  let filtered :=
    if currentFilters.author ≠ "all" then
      filtered.filter (fun result => decide (result.author = currentFilters.author))
    else filtered
  if currentFilters.sortBy = "relevance" then
    arraySort (fun a b => some (b.relevanceScore - a.relevanceScore)) filtered
  else if currentFilters.sortBy = "recent" then
    arraySort (fun a b => dateDiff b a) filtered
  else filtered

/-- The value of a score band: a number, or `-Infinity`, which is what `Math.max()` gives for an
empty result set and what its products are. -/
inductive BandValue where
  | negInfinity
  | finite (value : ℚ)
  deriving DecidableEq

/-- One entry of `availableFilters.scoreRanges`. -/
structure ScoreRange where
  label : String
  value : BandValue
  deriving DecidableEq

/-- The `availableFilters` state: the facets derived from a result set. -/
structure AvailableFilters where
  categories : List String
  authors : List String
  scoreRanges : List ScoreRange
  deriving DecidableEq

/-- The part of the component state of `SearchResults` that the filter actions read or write. -/
structure SearchResultsState where
  searchResultsFromDataBase : List SearchResultItem
  filteredResults : List SearchResultItem
  filters : FilterCriteria
  availableFilters : AvailableFilters
  deriving DecidableEq

/-- The value that `handleFilterChange(filterType, value)` stores under the key `filterType`, as
the four selectors of the page call it. -/
inductive FilterUpdate where
  | minScore (value : ℚ)
  | category (value : String)
  | author (value : String)
  | sortBy (value : String)
  deriving DecidableEq

/-- The object `{ ...filters, [filterType]: value }`. -/
def FilterUpdate.spread (filters : FilterCriteria) : FilterUpdate → FilterCriteria
  | .minScore v => { filters with minScore := v }
  | .category v => { filters with category := v }
  | .author v => { filters with author := v }
  | .sortBy v => { filters with sortBy := v }

/-- The state after `handleFilterChange(filterType, value)`. -/
def handleFilterChange (s : SearchResultsState) (u : FilterUpdate) : SearchResultsState :=
  let newFilters := u.spread s.filters
  { s with
    filters := newFilters
    filteredResults := applyFilters s.searchResultsFromDataBase newFilters }

/-- The constant `defaultFilters` of `clearFilters`. -/
def defaultFilters : FilterCriteria :=
  { category := "all", author := "all", sortBy := "relevance", minScore := 0 }

/-- The state after `clearFilters()`. -/
def clearFilters (s : SearchResultsState) : SearchResultsState :=
  { s with
    filters := defaultFilters
    filteredResults := applyFilters s.searchResultsFromDataBase defaultFilters }

/-- A filter action of the user: a change of one selector, or the "Clear Filters" button. -/
inductive FilterAction where
  | change (u : FilterUpdate)
  | clear
  deriving DecidableEq

/-- The state after one filter action. -/
def FilterAction.apply (s : SearchResultsState) : FilterAction → SearchResultsState
  | .change u => handleFilterChange s u
  | .clear => clearFilters s

/-- The criteria after one filter action, the visible list left aside. -/
def FilterAction.criteria (filters : FilterCriteria) : FilterAction → FilterCriteria
  | .change u => u.spread filters
  | .clear => defaultFilters

/-- The state after a sequence of filter actions, oldest first. -/
def runFilterActions (s : SearchResultsState) (actions : List FilterAction) :
    SearchResultsState :=
  actions.foldl FilterAction.apply s

/-! ## The text highlighter -/

/-- The text that the replacement string puts in front of a match. -/
def markOpen : List Char := "<mark class=\"bg-yellow-200 rounded\">".toList

/-- The text that the replacement string puts behind a match. -/
def markClose : List Char := "</mark>".toList

/-- The method `toLowerCase`, with the case mapping of the ASCII letters; every other character is
kept. -/
def toLowerCase (s : List Char) : List Char := s.map Char.toLower

/-- The array `s.split(sep)` for a one-character separator: the pieces between the separators,
empty pieces included. -/
def split (sep : Char) : List Char → List (List Char)
  | [] => [[]]
  | c :: cs =>
    if c = sep then [] :: split sep cs
    else
      match split sep cs with
      | [] => [[c]]
      | piece :: pieces => (c :: piece) :: pieces

/-- One position of a compiled pattern: a literal character, or the wildcard written `.`. -/
inductive PatternAtom where
  | char (c : Char)
  | any
  deriving DecidableEq, Repr

/-- The characters with a meaning of their own in the pattern text of `new RegExp`. -/
def syntaxCharacters : List Char := "^$\\.*+?()[]\x7b\x7d|".toList

/-- A compiled pattern: its atoms in order, and the number of leading atoms that the first
group holds, which is the length of what `$1` stands for. -/
structure RegExp where
  atoms : List PatternAtom
  capture : Nat
  deriving DecidableEq, Repr

/-- The scan of the pattern text of `new RegExp`, for a text written with ordinary characters,
the wildcard `.` and parentheses. `depth` is the number of groups that are open, `count` the
number of atoms read, `capture` the number of atoms that had been read when the first group was
closed. A parenthesis without its partner is a `SyntaxError` (`none`); a text with another syntax
character is outside the modelled patterns (`none`): the source either throws a `SyntaxError`
there or runs a pattern with repetition, alternation, classes or anchors. -/
def scanPattern : List Char → Nat → Nat → Option Nat → Option RegExp
  | [], depth, _, capture =>
    match depth, capture with
    | 0, some first => some { atoms := [], capture := first }
    | _, _ => none
  | c :: cs, depth, count, capture =>
    if c = '(' then scanPattern cs (depth + 1) count capture
    else if c = ')' then
      match depth with
      | 0 => none
      | open_ + 1 =>
        match capture with
        | none => scanPattern cs open_ count (if open_ = 0 then some count else none)
        | some first => scanPattern cs open_ count (some first)
    else if c = '.' then
      (scanPattern cs depth (count + 1) capture).map
        (fun regex => { regex with atoms := PatternAtom.any :: regex.atoms })
    else if c ∈ syntaxCharacters then none
    else
      (scanPattern cs depth (count + 1) capture).map
        (fun regex => { regex with atoms := PatternAtom.char c :: regex.atoms })

/-- The pattern of `new RegExp("(" + term + ")", 'gi')`: the text of the pattern begins with
the parenthesis that opens the first group, so what `$1` stands for begins where the match
begins; it is the whole match unless the term closes the group itself. -/
def compileRegExp (term : List Char) : Option RegExp :=
  scanPattern ('(' :: term ++ [')']) 0 0 none

/-- The line terminators, which the wildcard does not match. -/
def isLineTerminator (c : Char) : Bool :=
  c = '\n' || c = '\r' || c = Char.ofNat 0x2028 || c = Char.ofNat 0x2029

/-- Does the atom match the character under the `i` flag? Characters are compared after
`Canonicalize`, the upper-case mapping, here of the ASCII letters. -/
def matchAtom : PatternAtom → Char → Bool
  | .char p, c => p.toUpper = c.toUpper
  | .any, c => !isLineTerminator c

/-- Does the pattern match a prefix of the string? -/
def matchAt : List PatternAtom → List Char → Bool
  | [], _ => true
  | _ :: _, [] => false
  | atom :: atoms, c :: cs => matchAtom atom c && matchAt atoms cs

/-- The loop of `replace` with a global pattern that has an atom: at each position, left to
right, a match is replaced by `$1` between the markers and the scan resumes behind the match;
otherwise the character is copied. `fuel` bounds the number of positions visited. -/
def replaceLoop (regex : RegExp) : Nat → List Char → List Char
  | 0, s => s
  | fuel + 1, s =>
    match s with
    | [] => []
    | c :: cs =>
      if matchAt regex.atoms (c :: cs) then
        markOpen ++ (c :: cs).take regex.capture ++ markClose
          ++ replaceLoop regex fuel ((c :: cs).drop regex.atoms.length)
      else c :: replaceLoop regex fuel cs

/-- The result of `replace` for a pattern without atoms, which matches the empty string at every
position: a pair of markers in front of every character and at the end. -/
def markEveryPosition : List Char → List Char
  | [] => markOpen ++ markClose
  | c :: cs => markOpen ++ markClose ++ c :: markEveryPosition cs

/-- The string
`highlightedText.replace(regex, '<mark class="bg-yellow-200 rounded">$1</mark>')`. -/
def replaceAll (regex : RegExp) (highlightedText : List Char) : List Char :=
  if regex.atoms = [] then markEveryPosition highlightedText
  else replaceLoop regex highlightedText.length highlightedText

/-- The body of `terms.forEach`: every non-empty term, in turn, is replaced in the text that the
terms before it have produced. -/
def highlightTerms : List (List Char) → List Char → Option (List Char)
  | [], highlightedText => some highlightedText
  | term :: terms, highlightedText =>
    if term.length > 0 then
      match compileRegExp term with
      | some regex => highlightTerms terms (replaceAll regex highlightedText)
      | none => none
    else highlightTerms terms highlightedText

/-- What `highlightText` hands to React: the text itself, rendered as a text node, or a `span`
whose `innerHTML` is the marked-up text. -/
inductive Rendered where
  | text (s : List Char)
  | html (innerHTML : List Char)
  deriving DecidableEq, Repr

/-- The function `highlightText(text, searchTerms)`; a `null` or `undefined` query is `none`.
The result is `none` when a term is outside the modelled patterns. -/
def highlightText (text : List Char) (searchTerms : Option (List Char)) : Option Rendered :=
  match searchTerms with
  | none => some (.text text)
  | some query =>
    if query = [] then some (.text text)
    else (highlightTerms (split ' ' (toLowerCase query)) text).map Rendered.html

/-- The maximal runs of non-separator characters of a string, in order; `run` is the run being
read. -/
def runsFrom (isSeparator : Char → Bool) : List Char → List Char → List (List Char)
  | run, [] => if run = [] then [] else [run]
  | run, c :: cs =>
    if isSeparator c then
      if run = [] then runsFrom isSeparator [] cs else run :: runsFrom isSeparator [] cs
    else runsFrom isSeparator (run ++ [c]) cs

/-- The maximal runs of non-separator characters of a string. -/
def maximalRuns (isSeparator : Char → Bool) (s : List Char) : List (List Char) :=
  runsFrom isSeparator [] s

/-- The terms that `highlightText` replaces for a non-empty query: the non-empty pieces of the
lower-cased query. -/
def highlightedTerms (query : List Char) : List (List Char) :=
  (split ' ' (toLowerCase query)).filter (fun term => decide (term.length > 0))

/-- A small result set: three items in two categories. -/
def exampleResults : List SearchResultItem :=
  [{ _id := "1", title := "Tulsi care", author := "asha", category := "Herbs", tags := ["tulsi"],
     imageUrl := "", relevanceScore := 10, matchDetails := none, createdAt := some 5 },
   { _id := "2", title := "Neem shade", author := "ravi", category := "Trees", tags := [],
     imageUrl := "", relevanceScore := 30, matchDetails := none, createdAt := some 7 },
   { _id := "3", title := "Mint tea", author := "asha", category := "Herbs", tags := ["mint"],
     imageUrl := "", relevanceScore := 30, matchDetails := none, createdAt := some 2 }]

/-! ## The criteria as the specification words them -/

/-- The specification's wording of the three filter steps: the score is at least `minScore`, the
category is the selected one unless the selector is "all", and so is the author. -/
def qualifies (c : FilterCriteria) (item : SearchResultItem) : Bool :=
  decide (c.minScore ≤ item.relevanceScore)
    && (decide (c.category = "all") || decide (item.category = c.category))
    && (decide (c.author = "all") || decide (item.author = c.author))

/-- The three guarded filters of `applyFilters` as one predicate. -/
def passes (c : FilterCriteria) (item : SearchResultItem) : Bool :=
  (!decide (c.minScore > 0) || decide (item.relevanceScore ≥ c.minScore))
    && (!decide (c.category ≠ "all") || decide (item.category = c.category))
    && (!decide (c.author ≠ "all") || decide (item.author = c.author))

/-- The `switch` on `sortBy` of `applyFilters`. -/
def sortStage (c : FilterCriteria) (filtered : List SearchResultItem) : List SearchResultItem :=
  if c.sortBy = "relevance" then
    arraySort (fun a b => some (b.relevanceScore - a.relevanceScore)) filtered
  else if c.sortBy = "recent" then
    arraySort (fun a b => dateDiff b a) filtered
  else filtered

/-! ## The search box of the navigation bar (`NavBar.jsx`) -/

/-- The React state of the search box: `searchData`, `suggestions`, `loading`,
`showSuggestions` and `selectedSuggestion`. -/
structure NavBarState where
  searchData : List Char
  suggestions : List SearchResultItem
  loading : Bool
  showSuggestions : Bool
  selectedSuggestion : Int
  deriving DecidableEq

/-- A call of `navigate`: to "/blogdetails" with `state.blogDetails` (`none` is `undefined`), or
to "/searchresults" with `state.searchData`. -/
inductive Navigation where
  | blogDetails (blogDetails : Option SearchResultItem)
  | searchResults (searchData : List Char)
  deriving DecidableEq

/-- The keys that `handleKeyDown` tells apart. -/
inductive Key where
  | arrowDown
  | arrowUp
  | enter
  | escape
  | other
  deriving DecidableEq, Repr

/-- The code points that `String.prototype.trim` removes: white space and line terminators. -/
def whiteSpaceCodes : List Nat :=
  [0x09, 0x0A, 0x0B, 0x0C, 0x0D, 0x20, 0xA0, 0x1680, 0x2000, 0x2001, 0x2002, 0x2003, 0x2004,
   0x2005, 0x2006, 0x2007, 0x2008, 0x2009, 0x200A, 0x2028, 0x2029, 0x202F, 0x205F, 0x3000,
   0xFEFF]

/-- Is the character removed by `trim`? -/
def isWhiteSpace (c : Char) : Bool := decide (c.toNat ∈ whiteSpaceCodes)

/-- The method `trim`. -/
def trim (s : List Char) : List Char :=
  ((s.dropWhile isWhiteSpace).reverse.dropWhile isWhiteSpace).reverse

/-- The state written by `handleSearchInputs` for the input value `value`; the call of the
debounced `fetchSuggestions` is in `NavBar.change`. -/
def handleSearchInputs (s : NavBarState) (value : List Char) : NavBarState :=
  { s with searchData := value, showSuggestions := true, selectedSuggestion := -1 }

/-- The function `handleSuggestionClick(suggestion)`: the state after it and its navigation. -/
def handleSuggestionClick (s : NavBarState) (suggestion : Option SearchResultItem) :
    NavBarState × List Navigation :=
  ({ s with searchData := [], showSuggestions := false }, [Navigation.blogDetails suggestion])

/-- The function `handleSearchBlog()`: the state after it and its navigation, if any. -/
def handleSearchBlog (s : NavBarState) : NavBarState × List Navigation :=
  if trim s.searchData ≠ [] then
    ({ s with searchData := [], showSuggestions := false },
      [Navigation.searchResults s.searchData])
  else (s, [])

/-- The function `handleKeyDown(e)` for the key `e.key`: the state after it and its navigation,
if any. `suggestions[selectedSuggestion]` is `undefined` (`none`) past the end of the list. -/
def handleKeyDown (s : NavBarState) : Key → NavBarState × List Navigation
  | .arrowDown =>
    ({ s with
       selectedSuggestion :=
         if s.selectedSuggestion < (s.suggestions.length : Int) - 1 then s.selectedSuggestion + 1
         else s.selectedSuggestion }, [])
  | .arrowUp =>
    ({ s with
       selectedSuggestion := if s.selectedSuggestion > -1 then s.selectedSuggestion - 1 else -1 },
      [])
  | .enter =>
    if s.selectedSuggestion > -1 then
      handleSuggestionClick s (s.suggestions[s.selectedSuggestion.toNat]?)
    else handleSearchBlog s
  | .escape => ({ s with showSuggestions := false }, [])
  | .other => (s, [])

/-- The state after `count` presses of the same key. -/
def pressKey (key : Key) : Nat → NavBarState → NavBarState
  | 0, s => s
  | count + 1, s => pressKey key count (handleKeyDown s key).1

/-- The function `fetchSuggestions(query)` up to its `await`: the state after it, and the
`searchData` of the request posted to the search endpoint, `none` when no request is made. -/
def fetchSuggestions (s : NavBarState) (query : List Char) : NavBarState × Option (List Char) :=
  if trim query = [] then ({ s with suggestions := [] }, none)
  else ({ s with loading := true }, some query)

/-- How the request of `fetchSuggestions` ends: with a response, whose `data.response` is a list
or is missing (`none`), or with a failure. -/
inductive FetchOutcome where
  | resolved (response : Option (List SearchResultItem))
  | rejected
  deriving DecidableEq

/-- The function `fetchSuggestions` from its `await` on: the state after the `try`, the `catch`
(which only logs) and the `finally`. -/
def fetchSuggestionsSettled (s : NavBarState) : FetchOutcome → NavBarState
  | .resolved (some response) => { s with suggestions := response.take 5, loading := false }
  | .resolved none => { s with loading := false }
  | .rejected => { s with loading := false }

/-- The second argument of `debounce(fetchSuggestions, 300)`. -/
def debounceWait : Nat := 300

/-- A pending `setTimeout(later, wait)`: its id, the time at which it fires and the argument that
`later` passes to `fetchSuggestions`. -/
structure Timer where
  id : Nat
  fireAt : Nat
  query : List Char
  deriving DecidableEq, Repr

/-- A request posted to the search endpoint by `fetchSuggestions`. -/
structure Request where
  id : Nat
  sentAt : Nat
  searchData : List Char
  deriving DecidableEq, Repr

/-- The search box with its surroundings: the React state, the variable `timeout` of the
debounced function that the current render has created, the pending timers, the requests that are
awaited, and the logs of the requests made and of the navigations. -/
structure NavBar where
  state : NavBarState
  timeout : Option Nat
  timers : List Timer
  nextTimer : Nat
  inFlight : List Request
  sent : List Request
  navigations : List Navigation
  deriving DecidableEq

/-- The search box when the component is mounted. -/
def NavBar.initial : NavBar :=
  { state := { searchData := [], suggestions := [], loading := false, showSuggestions := false,
               selectedSuggestion := -1 },
    timeout := none, timers := [], nextTimer := 0, inFlight := [], sent := [],
    navigations := [] }

/-- A change of state makes React render the component again, and the body of the component runs
`debounce(fetchSuggestions, 300)` at every render: the debounced function of the new render has a
`timeout` variable of its own, not yet assigned. -/
def NavBar.rerender (before : NavBarState) (w : NavBar) : NavBar :=
  if w.state = before then w else { w with timeout := none }

/-- The `onChange` of the input at time `now`: `handleSearchInputs`, whose call of
`debouncedFetchSuggestions(value)` clears the timer held in `timeout` and sets a new one. -/
def NavBar.change (now : Nat) (value : List Char) (w : NavBar) : NavBar :=
  let kept :=
    match w.timeout with
    | some id => w.timers.filter (fun timer => decide (timer.id ≠ id))
    | none => w.timers
  NavBar.rerender w.state
    { w with
      state := handleSearchInputs w.state value
      timers := kept ++ [{ id := w.nextTimer, fireAt := now + debounceWait, query := value }]
      timeout := some w.nextTimer
      nextTimer := w.nextTimer + 1 }

/-- The pending timer `id` fires at time `now`: `later` calls `fetchSuggestions` with the
argument of the timer. -/
def NavBar.timerFires (now : Nat) (id : Nat) (w : NavBar) : NavBar :=
  match w.timers.find? (fun timer => decide (timer.id = id)) with
  | none => w
  | some timer =>
    let remaining := w.timers.filter (fun t => decide (t.id ≠ id))
    match fetchSuggestions w.state timer.query with
    | (state, none) => NavBar.rerender w.state { w with state := state, timers := remaining }
    | (state, some searchData) =>
      let request : Request := { id := w.sent.length, sentAt := now, searchData := searchData }
      NavBar.rerender w.state
        { w with
          state := state
          timers := remaining
          inFlight := w.inFlight ++ [request]
          sent := w.sent ++ [request] }

/-- The awaited request `id` ends with `outcome`. -/
def NavBar.settles (id : Nat) (outcome : FetchOutcome) (w : NavBar) : NavBar :=
  if w.inFlight.any (fun request => decide (request.id = id)) then
    NavBar.rerender w.state
      { w with
        state := fetchSuggestionsSettled w.state outcome
        inFlight := w.inFlight.filter (fun request => decide (request.id ≠ id)) }
  else w

/-- A handler that returns a state and navigations, run on the search box. -/
def NavBar.handle (w : NavBar) (result : NavBarState × List Navigation) : NavBar :=
  NavBar.rerender w.state
    { w with state := result.1, navigations := w.navigations ++ result.2 }

/-- What can happen to the search box. -/
inductive NavBarEvent where
  | change (value : List Char)
  | keyDown (key : Key)
  | clickSuggestion (index : Nat)
  | clickSearch
  | clickOutside
  | timerFires (id : Nat)
  | settles (id : Nat) (outcome : FetchOutcome)
  deriving DecidableEq

/-- The search box after an event at time `now`. A suggestion can be clicked when the dropdown
shows it, the search button when it is not disabled by `loading`. -/
def NavBar.step (now : Nat) (w : NavBar) : NavBarEvent → NavBar
  | .change value => w.change now value
  | .keyDown key => w.handle (handleKeyDown w.state key)
  | .clickSuggestion index =>
    match w.state.suggestions[index]? with
    | some suggestion =>
      if w.state.showSuggestions then w.handle (handleSuggestionClick w.state (some suggestion))
      else w
    | none => w
  | .clickSearch => if w.state.loading then w else w.handle (handleSearchBlog w.state)
  | .clickOutside => w.handle ({ w.state with showSuggestions := false }, [])
  | .timerFires id => w.timerFires now id
  | .settles id outcome => w.settles id outcome

/-- The search box after a sequence of timed events, oldest first. -/
def NavBar.run (w : NavBar) (events : List (Nat × NavBarEvent)) : NavBar :=
  events.foldl (fun w event => w.step event.1 event.2) w

/-- The pending timers fire, each at its own time, in the order in which they were set. -/
def NavBar.fireAll (w : NavBar) (timers : List Timer) : NavBar :=
  timers.foldl (fun w timer => w.timerFires timer.fireAt timer.id) w

/-- Time passes up to `now`: the timers due by then fire. -/
def NavBar.advanceTo (now : Nat) (w : NavBar) : NavBar :=
  w.fireAll (w.timers.filter (fun timer => decide (timer.fireAt ≤ now)))

/-- The user types: at each of the given times the input changes to the given value, the timers
due before firing first; then nothing more happens and the remaining timers fire. -/
def NavBar.typeBurst (w : NavBar) : List (Nat × List Char) → NavBar
  | [] => w.fireAll w.timers
  | (now, value) :: rest => NavBar.typeBurst ((w.advanceTo now).change now value) rest

/-- The selection index is −1 or an index into the candidates. -/
def indexValid (s : NavBarState) : Prop :=
  s.selectedSuggestion = -1
    ∨ (0 ≤ s.selectedSuggestion ∧ s.selectedSuggestion < (s.suggestions.length : Int))

instance (s : NavBarState) : Decidable (indexValid s) := by
  unfold indexValid
  exact inferInstance

/-- A state of the search box with the example result set as candidates, the second candidate
selected. -/
def exampleNavBarState : NavBarState :=
  { searchData := "tea".toList, suggestions := exampleResults, loading := false,
    showSuggestions := true, selectedSuggestion := 1 }

/-- The user types "a", sees the two candidates of its response, types on to "ab" and presses
ArrowDown twice before the response for "ab" arrives with one candidate. -/
def shrinkingResponseTrace : List (Nat × NavBarEvent) :=
  [(0, NavBarEvent.change "a".toList),
   (300, NavBarEvent.timerFires 0),
   (400, NavBarEvent.settles 0 (FetchOutcome.resolved (some (exampleResults.take 2)))),
   (500, NavBarEvent.change "ab".toList),
   (600, NavBarEvent.keyDown Key.arrowDown),
   (610, NavBarEvent.keyDown Key.arrowDown),
   (800, NavBarEvent.timerFires 1),
   (900, NavBarEvent.settles 1 (FetchOutcome.resolved (some (exampleResults.drop 2))))]

/-- The queries "a" and then "ab" are posted, and both are awaited. -/
def twoQueriesTrace : List (Nat × NavBarEvent) :=
  [(0, NavBarEvent.change "a".toList),
   (50, NavBarEvent.change "ab".toList),
   (300, NavBarEvent.timerFires 0),
   (350, NavBarEvent.timerFires 1)]

/-- The response for "ab" arrives first, the response for "a" after it. -/
def staleResponseTrace : List (Nat × NavBarEvent) :=
  twoQueriesTrace ++
    [(400, NavBarEvent.settles 1 (FetchOutcome.resolved (some (exampleResults.drop 2)))),
     (500, NavBarEvent.settles 0 (FetchOutcome.resolved (some (exampleResults.take 2))))]

/-! ## Loading the results (`fetchResults` of `SearchResults.jsx`) -/

/-- The integer nearest to `x`; when `x` is half-way between two integers, the even one. -/
def roundHalfEven (x : ℚ) : ℤ :=
  if x - ⌊x⌋ < 1 / 2 then ⌊x⌋
  else if 1 / 2 < x - ⌊x⌋ then ⌊x⌋ + 1
  else if ⌊x⌋ % 2 = 0 then ⌊x⌋ else ⌊x⌋ + 1

/-- The exponent of the power of two that a double of the size of `q` is a 53-bit multiple of,
plus 52: the exponent of the binade of `q`, and −1022 for the numbers below the normal doubles. -/
def binade (q : ℚ) : ℤ := max (Int.log 2 q) (-1022)

/-- The double nearest to a non-negative number, ties to even. -/
def roundMagnitude (q : ℚ) : ℚ :=
  roundHalfEven (q / 2 ^ (binade q - 52)) * 2 ^ (binade q - 52)

/-- The double nearest to `q`, ties to even, for `q` within the range of the doubles. -/
def roundDouble (q : ℚ) : ℚ :=
  if q < 0 then -roundMagnitude (-q) else roundMagnitude q

/-- The double that the literal `0.3` stands for. -/
def double03 : ℚ := 5404319552844595 / 18014398509481984

/-- The double that the literal `0.5` stands for. -/
def double05 : ℚ := 1 / 2

/-- The double that the literal `0.7` stands for. -/
def double07 : ℚ := 3152519739159347 / 4503599627370496

/-- The value of `Math.max(...scores)`. -/
def mathMax : List ℚ → BandValue
  | [] => BandValue.negInfinity
  | score :: scores =>
    match mathMax scores with
    | BandValue.negInfinity => BandValue.finite score
    | BandValue.finite best => BandValue.finite (max score best)

/-- The product `maxScore * factor` of two doubles, for a positive factor below 1: the exact
product rounded to the nearest double. -/
def BandValue.times (factor : ℚ) : BandValue → BandValue
  | BandValue.negInfinity => BandValue.negInfinity
  | BandValue.finite value => BandValue.finite (roundDouble (value * factor))

/-- The array `scoreRanges` that `fetchResults` derives from the results. -/
def scoreRanges (results : List SearchResultItem) : List ScoreRange :=
  let scores := results.map (fun r => r.relevanceScore)
  let maxScore := mathMax scores
  [{ label := "All", value := BandValue.finite 0 },
   { label := "Good Matches", value := maxScore.times double03 },
   { label := "Better Matches", value := maxScore.times double05 },
   { label := "Best Matches", value := maxScore.times double07 }]

/-- A result set whose maximum score is 3. -/
def scoreThreeResults : List SearchResultItem :=
  [{ _id := "1", title := "Tulsi care", author := "asha", category := "Herbs", tags := [],
     imageUrl := "", relevanceScore := 3, matchDetails := none, createdAt := some 1 },
   { _id := "2", title := "Neem shade", author := "ravi", category := "Trees", tags := [],
     imageUrl := "", relevanceScore := 2, matchDetails := none, createdAt := some 2 }]

/-- The elements of `new Set(values)` in the order of the set: every value once, at its first
occurrence. -/
def distinct : List String → List String
  | [] => []
  | value :: values => value :: (distinct values).filter (fun v => decide (v ≠ value))

/-- The record `response.data.searchMetadata`. -/
structure SearchMetadata where
  topScore : ℚ
  deriving DecidableEq

/-- The state of the result page: the state that the filters work on, and `searchMetadata`,
`loading` and `error`. -/
structure SearchResultsPage where
  results : SearchResultsState
  searchMetadata : Option SearchMetadata
  loading : Bool
  error : Option String
  deriving DecidableEq

/-- How the request of `fetchResults` ends: with a response, whose `data.response` is a list or
is missing (`none`), or with a failure. -/
inductive SearchOutcome where
  | resolved (response : Option (List SearchResultItem)) (searchMetadata : Option SearchMetadata)
  | rejected
  deriving DecidableEq

/-- The function `fetchResults` up to its `await`. -/
def fetchResultsStart (page : SearchResultsPage) : SearchResultsPage :=
  { page with loading := true, error := none }

/-- The function `fetchResults` from its `await` on: the `try`, the `catch` and the `finally`.
The page shows a spinner while `loading` is set, so the `filters` of the closure are the current
criteria. -/
def fetchResultsSettled (page : SearchResultsPage) : SearchOutcome → SearchResultsPage
  | SearchOutcome.resolved (some results) searchMetadata =>
    { page with
      results :=
        { searchResultsFromDataBase := results
          filteredResults := applyFilters results page.results.filters
          filters := page.results.filters
          availableFilters :=
            { categories := distinct (results.map (fun result => result.category))
              authors := distinct (results.map (fun result => result.author))
              scoreRanges := scoreRanges results } }
      searchMetadata := searchMetadata
      loading := false }
  | SearchOutcome.resolved none _ => { page with loading := false }
  | SearchOutcome.rejected =>
    { page with
      error := some "Failed to fetch search results. Please try again."
      loading := false }

/-- The effect `fetchResults()` of a new search, from start to end. -/
def fetchResults (page : SearchResultsPage) (outcome : SearchOutcome) : SearchResultsPage :=
  fetchResultsSettled (fetchResultsStart page) outcome

/-- The result page after a search that has loaded the example result set. -/
def examplePage : SearchResultsPage :=
  fetchResults
    { results :=
        { searchResultsFromDataBase := [], filteredResults := [], filters := defaultFilters,
          availableFilters := { categories := [], authors := [], scoreRanges := [] } },
      searchMetadata := none, loading := true, error := none }
    (SearchOutcome.resolved (some exampleResults) (some { topScore := 30 }))

/-! ## The steps of the pipeline, one by one -/

/-- The four steps of `applyFilters`. -/
inductive PipelineStep where
  | minScore
  | category
  | author
  | sort
  deriving DecidableEq, Repr

/-- One step of `applyFilters` on the list `filtered`. -/
def PipelineStep.run (c : FilterCriteria) :
    PipelineStep → List SearchResultItem → List SearchResultItem
  | PipelineStep.minScore, filtered =>
    if c.minScore > 0 then
      filtered.filter (fun result => decide (result.relevanceScore ≥ c.minScore))
    else filtered
  | PipelineStep.category, filtered =>
    if c.category ≠ "all" then
      filtered.filter (fun result => decide (result.category = c.category))
    else filtered
  | PipelineStep.author, filtered =>
    if c.author ≠ "all" then
      filtered.filter (fun result => decide (result.author = c.author))
    else filtered
  | PipelineStep.sort, filtered =>
    if c.sortBy = "relevance" then
      arraySort (fun a b => some (b.relevanceScore - a.relevanceScore)) filtered
    else if c.sortBy = "recent" then
      arraySort (fun a b => dateDiff b a) filtered
    else filtered

/-- The predicate that a step filters by; the sort keeps every item. -/
def PipelineStep.keeps (c : FilterCriteria) : PipelineStep → SearchResultItem → Bool
  | PipelineStep.minScore, item =>
    !decide (c.minScore > 0) || decide (item.relevanceScore ≥ c.minScore)
  | PipelineStep.category, item =>
    !decide (c.category ≠ "all") || decide (item.category = c.category)
  | PipelineStep.author, item =>
    !decide (c.author ≠ "all") || decide (item.author = c.author)
  | PipelineStep.sort, _ => true

/-- The steps applied in the given order. -/
def runSteps (c : FilterCriteria) (steps : List PipelineStep)
    (results : List SearchResultItem) : List SearchResultItem :=
  steps.foldl (fun filtered step => step.run c filtered) results

/-- The order in which `applyFilters` applies its steps. -/
def pipelineOrder : List PipelineStep :=
  [PipelineStep.minScore, PipelineStep.category, PipelineStep.author, PipelineStep.sort]

/-- Three results, the second of which has a creation date that does not parse. -/
def undatedResults : List SearchResultItem :=
  [{ _id := "1", title := "Tulsi care", author := "asha", category := "Herbs", tags := [],
     imageUrl := "", relevanceScore := 10, matchDetails := none, createdAt := some 1 },
   { _id := "2", title := "Neem shade", author := "ravi", category := "Trees", tags := [],
     imageUrl := "", relevanceScore := 30, matchDetails := none, createdAt := none },
   { _id := "3", title := "Mint tea", author := "asha", category := "Herbs", tags := [],
     imageUrl := "", relevanceScore := 30, matchDetails := none, createdAt := some 2 }]

/-- The criteria "category Herbs, newest first". -/
def recentHerbs : FilterCriteria :=
  { category := "Herbs", author := "all", sortBy := "recent", minScore := 0 }

/-- The steps of `applyFilters` with the sort moved to the front. -/
def sortFirstOrder : List PipelineStep :=
  [PipelineStep.sort, PipelineStep.minScore, PipelineStep.category, PipelineStep.author]

/-! ## The form of `CreateBlog.jsx` -/

/-- The fields of the form that `validateForm` reads. -/
structure BlogForm where
  title : List Char
  author : List Char
  date : List Char
  category : List Char
  content : List Char
  tags : List String
  imageUrl : List Char
  deriving DecidableEq

/-- The function `validateForm()`: its result, and the messages it hands to `toast.error`. -/
def validateForm (form : BlogForm) : Bool × List String :=
  if trim form.title = [] then (false, ["Please enter a title"])
  else if trim form.author = [] then (false, ["Please enter an author name"])
  else if form.date = [] then (false, ["Please select a date"])
  else if form.category = [] then (false, ["Please select a category"])
  else if trim form.content = [] then (false, ["Please enter some content"])
  else if form.tags.length = 0 then (false, ["Please select at least one tag"])
  else if trim form.imageUrl = [] then (false, ["Please enter an image URL"])
  else (true, [])

/-- The checks of the form as the specification lists them: for each field, in the order title,
author, date, category, content, tags, image URL, whether it is filled in, and the error that is
reported when it is not. -/
def fieldChecks (form : BlogForm) : List (Bool × String) :=
  [(decide (trim form.title ≠ []), "Please enter a title"),
   (decide (trim form.author ≠ []), "Please enter an author name"),
   (decide (form.date ≠ []), "Please select a date"),
   (decide (form.category ≠ []), "Please select a category"),
   (decide (trim form.content ≠ []), "Please enter some content"),
   (decide (form.tags ≠ []), "Please select at least one tag"),
   (decide (trim form.imageUrl ≠ []), "Please enter an image URL")]

/-- A form with every field filled in. -/
def exampleForm : BlogForm :=
  { title := "Tulsi".toList, author := "asha".toList, date := "2024-05-01".toList,
    category := "Plants".toList, content := "Water it daily.".toList, tags := ["Plants"],
    imageUrl := "https://example.org/tulsi.png".toList }

/-- The user types "a" and sees the two candidates of its response. -/
def twoCandidatesTrace : List (Nat × NavBarEvent) :=
  [(0, NavBarEvent.change "a".toList),
   (300, NavBarEvent.timerFires 0),
   (400, NavBarEvent.settles 0 (FetchOutcome.resolved (some (exampleResults.take 2))))]

/-- With two candidates on display, the user replaces the query by a space at time 500. -/
def blankKeystrokeTrace : List (Nat × NavBarEvent) :=
  twoCandidatesTrace ++ [(500, NavBarEvent.change [' '])]

end Vatika

/-! # Theorems -/

namespace Vatika

/-! ## The stable sort -/

section SortLemmas

variable {α : Type} (cmp : α → α → Option ℚ)

theorem sortInsert_perm (x : α) (l : List α) : (sortInsert cmp x l).Perm (x :: l) := by
  induction l with
  | nil => exact List.Perm.refl _
  | cons y ys ih =>
    unfold sortInsert
    split
    · exact List.Perm.refl _
    · exact (List.Perm.cons y ih).trans (List.Perm.swap x y ys)

theorem arraySort_perm (l : List α) : (arraySort cmp l).Perm l := by
  induction l with
  | nil => exact List.Perm.refl _
  | cons x xs ih =>
    unfold arraySort
    exact (sortInsert_perm cmp x _).trans (List.Perm.cons x ih)

theorem mem_sortInsert {x z : α} {l : List α} : z ∈ sortInsert cmp x l ↔ z = x ∨ z ∈ l := by
  rw [(sortInsert_perm cmp x l).mem_iff, List.mem_cons]

theorem mem_arraySort {z : α} {l : List α} : z ∈ arraySort cmp l ↔ z ∈ l :=
  (arraySort_perm cmp l).mem_iff

/-- Inserting into a sorted list gives a sorted list, when the comparator is total and transitive
on the elements at hand (those that satisfy `P`). -/
theorem sortInsert_pairwise (P : α → Prop)
    (htot : ∀ a b, P a → P b → ¬ sortCompare cmp a b ≤ 0 → sortCompare cmp b a ≤ 0)
    (htr : ∀ a b c, P a → P b → P c → sortCompare cmp a b ≤ 0 → sortCompare cmp b c ≤ 0 →
      sortCompare cmp a c ≤ 0)
    (x : α) (l : List α) (hx : P x) (hl : ∀ y ∈ l, P y)
    (hs : l.Pairwise (fun a b => sortCompare cmp a b ≤ 0)) :
    (sortInsert cmp x l).Pairwise (fun a b => sortCompare cmp a b ≤ 0) := by
  induction l with
  | nil => simp [sortInsert]
  | cons y ys ih =>
    have hy : P y := hl y (List.mem_cons_self _ _)
    have hys : ∀ z ∈ ys, P z := fun z hz => hl z (List.mem_cons_of_mem _ hz)
    rw [List.pairwise_cons] at hs
    unfold sortInsert
    split
    · rename_i hxy
      refine List.Pairwise.cons ?_ (List.Pairwise.cons hs.1 hs.2)
      intro z hz
      rcases List.mem_cons.1 hz with rfl | hz
      · exact hxy
      · exact htr x y z hx hy (hys z hz) hxy (hs.1 z hz)
    · rename_i hxy
      refine List.Pairwise.cons ?_ (ih hys hs.2)
      intro z hz
      rcases (mem_sortInsert cmp).1 hz with rfl | hz
      · exact htot _ _ hx hy hxy
      · exact hs.1 z hz

/-- The sort gives a sorted list, when the comparator is total and transitive on the elements of
the list. -/
theorem arraySort_pairwise (P : α → Prop)
    (htot : ∀ a b, P a → P b → ¬ sortCompare cmp a b ≤ 0 → sortCompare cmp b a ≤ 0)
    (htr : ∀ a b c, P a → P b → P c → sortCompare cmp a b ≤ 0 → sortCompare cmp b c ≤ 0 →
      sortCompare cmp a c ≤ 0)
    (l : List α) (hl : ∀ y ∈ l, P y) :
    (arraySort cmp l).Pairwise (fun a b => sortCompare cmp a b ≤ 0) := by
  induction l with
  | nil => simp [arraySort]
  | cons x xs ih =>
    unfold arraySort
    have hxs : ∀ z ∈ xs, P z := fun z hz => hl z (List.mem_cons_of_mem _ hz)
    exact sortInsert_pairwise cmp P htot htr x _ (hl x (List.mem_cons_self _ _))
      (fun y hy => hxs y ((mem_arraySort cmp).1 hy)) (ih hxs)

/-- Stability, for a class `p` of elements none of which has to follow another: inserting keeps
the order of the class. -/
theorem filter_sortInsert (p : α → Bool)
    (hp : ∀ a b, p a = true → p b = true → sortCompare cmp a b ≤ 0) (x : α) (l : List α) :
    (sortInsert cmp x l).filter p = (x :: l).filter p := by
  induction l with
  | nil => rfl
  | cons y ys ih =>
    unfold sortInsert
    split
    · rfl
    · rename_i hxy
      by_cases hx : p x = true
      · have hy : p y = false := by
          by_contra hy
          exact hxy (hp x y hx (by simpa using hy))
        rw [List.filter_cons_of_neg (by simp [hy]), ih]
        simp [List.filter_cons, hx, hy]
      · by_cases hy : p y = true
        · rw [List.filter_cons_of_pos hy, ih]
          simp [List.filter_cons, hx, hy]
        · rw [List.filter_cons_of_neg hy, ih]
          simp [List.filter_cons, hx, hy]

/-- Stability of the sort: the elements of such a class keep their order. -/
theorem filter_arraySort (p : α → Bool)
    (hp : ∀ a b, p a = true → p b = true → sortCompare cmp a b ≤ 0) (l : List α) :
    (arraySort cmp l).filter p = l.filter p := by
  induction l with
  | nil => rfl
  | cons x xs ih =>
    unfold arraySort
    rw [filter_sortInsert cmp p hp, List.filter_cons, List.filter_cons, ih]

/-- An element that need not follow the head of the list is inserted at the front. -/
theorem sortInsert_eq_cons (x : α) (l : List α) (h : ∀ y ∈ l.head?, sortCompare cmp x y ≤ 0) :
    sortInsert cmp x l = x :: l := by
  cases l with
  | nil => rfl
  | cons y ys =>
    unfold sortInsert
    rw [if_pos (h y (by simp))]

theorem head_sortInsert (x : α) (l : List α) :
    ∀ z ∈ (sortInsert cmp x l).head?, z = x ∨ z ∈ l.head? := by
  cases l with
  | nil => simp [sortInsert]
  | cons y ys =>
    unfold sortInsert
    split <;> simp

/-- Inserting keeps every element next to one it need not follow, for a total comparator. -/
theorem sortInsert_chain
    (htot : ∀ a b, ¬ sortCompare cmp a b ≤ 0 → sortCompare cmp b a ≤ 0)
    (x : α) (l : List α) (hl : l.Chain' (fun a b => sortCompare cmp a b ≤ 0)) :
    (sortInsert cmp x l).Chain' (fun a b => sortCompare cmp a b ≤ 0) := by
  induction l with
  | nil => simp [sortInsert]
  | cons y ys ih =>
    unfold sortInsert
    split
    · rename_i hxy
      exact List.Chain'.cons hxy hl
    · rename_i hxy
      refine List.Chain'.cons' (ih hl.tail) ?_
      intro z hz
      rcases head_sortInsert cmp x ys z hz with rfl | hz
      · exact htot _ _ hxy
      · exact hl.rel_head? hz

theorem arraySort_chain
    (htot : ∀ a b, ¬ sortCompare cmp a b ≤ 0 → sortCompare cmp b a ≤ 0) (l : List α) :
    (arraySort cmp l).Chain' (fun a b => sortCompare cmp a b ≤ 0) := by
  induction l with
  | nil => simp [arraySort]
  | cons x xs ih =>
    unfold arraySort
    exact sortInsert_chain cmp htot x _ ih

/-- The sort leaves a list alone in which every element is next to one it need not follow. -/
theorem arraySort_eq_self (l : List α)
    (hl : l.Chain' (fun a b => sortCompare cmp a b ≤ 0)) : arraySort cmp l = l := by
  induction l with
  | nil => rfl
  | cons x xs ih =>
    unfold arraySort
    rw [ih hl.tail]
    exact sortInsert_eq_cons cmp x xs (fun y hy => hl.rel_head? hy)

/-- Sorting twice is sorting once, for a total comparator. -/
theorem arraySort_idem
    (htot : ∀ a b, ¬ sortCompare cmp a b ≤ 0 → sortCompare cmp b a ≤ 0) (l : List α) :
    arraySort cmp (arraySort cmp l) = arraySort cmp l :=
  arraySort_eq_self cmp _ (arraySort_chain cmp htot l)

end SortLemmas

/-! ## The filter/sort pipeline -/

theorem applyFilters_eq (xs : List SearchResultItem) (c : FilterCriteria) :
    applyFilters xs c = sortStage c (xs.filter (passes c)) := by
  have hpre : (if c.author ≠ "all" then
        (if c.category ≠ "all" then
          (if c.minScore > 0 then
            xs.filter (fun result => decide (result.relevanceScore ≥ c.minScore))
          else xs).filter (fun result => decide (result.category = c.category))
        else
          (if c.minScore > 0 then
            xs.filter (fun result => decide (result.relevanceScore ≥ c.minScore))
          else xs)).filter (fun result => decide (result.author = c.author))
      else
        (if c.category ≠ "all" then
          (if c.minScore > 0 then
            xs.filter (fun result => decide (result.relevanceScore ≥ c.minScore))
          else xs).filter (fun result => decide (result.category = c.category))
        else
          (if c.minScore > 0 then
            xs.filter (fun result => decide (result.relevanceScore ≥ c.minScore))
          else xs))) = xs.filter (passes c) := by
    by_cases h1 : c.minScore > 0 <;> by_cases h2 : c.category = "all" <;>
      by_cases h3 : c.author = "all" <;>
      simp only [h1, h2, h3, if_true, if_false, ne_eq, not_true_eq_false,
        not_false_eq_true, List.filter_filter] <;>
      first
        | (apply List.filter_congr; intro x _
           simp [passes, h1, h2, h3, Bool.and_comm, Bool.and_assoc, Bool.and_left_comm])
        | (symm; apply List.filter_eq_self.2; intro x _; simp [passes, h1, h2, h3])
  unfold applyFilters sortStage
  simp only [hpre]

theorem sortStage_perm (c : FilterCriteria) (l : List SearchResultItem) :
    (sortStage c l).Perm l := by
  unfold sortStage
  split
  · exact arraySort_perm _ l
  · split
    · exact arraySort_perm _ l
    · exact List.Perm.refl l

theorem sortCompare_relevance (a b : SearchResultItem) :
    sortCompare (fun a b : SearchResultItem => some (b.relevanceScore - a.relevanceScore)) a b
      = b.relevanceScore - a.relevanceScore := rfl

theorem sortCompare_recent_total (a b : SearchResultItem)
    (h : ¬ sortCompare (fun a b => dateDiff b a) a b ≤ 0) :
    sortCompare (fun a b => dateDiff b a) b a ≤ 0 := by
  unfold sortCompare dateDiff at *
  cases ha : a.createdAt <;> cases hb : b.createdAt <;> simp [ha, hb] at h ⊢
  exact le_of_lt h

theorem sortStage_idem (c : FilterCriteria) (l : List SearchResultItem) :
    sortStage c (sortStage c l) = sortStage c l := by
  unfold sortStage
  split
  · apply arraySort_idem
    intro a b h
    rw [sortCompare_relevance] at *
    linarith
  · split
    · exact arraySort_idem _ sortCompare_recent_total l
    · rfl

theorem passes_eq_qualifies (c : FilterCriteria) (x : SearchResultItem)
    (hx : 0 ≤ x.relevanceScore) (hm : 0 ≤ c.minScore) : passes c x = qualifies c x := by
  unfold passes qualifies
  have h1 : (!decide (c.minScore > 0) || decide (x.relevanceScore ≥ c.minScore))
      = decide (c.minScore ≤ x.relevanceScore) := by
    by_cases h : c.minScore > 0
    · simp [h]
    · have h0 : c.minScore = 0 := le_antisymm (not_lt.1 h) hm
      simp [h0, hx]
  have h2 : ∀ v w : String, (!decide (v ≠ "all") || decide (w = v))
      = (decide (v = "all") || decide (w = v)) := by
    intro v w
    by_cases h : v = "all" <;> simp [h]
  rw [h1, h2, h2]

/-- C1. With non-negative scores and a non-negative `minScore`, the output of `applyFilters` holds,
with the same multiplicity, exactly the items of the full set whose score is at least `minScore`,
whose category is the selected one unless the selector is "all", and whose author is the selected
one unless the selector is "all". -/
theorem applyFilters_perm_qualifying (xs : List SearchResultItem) (c : FilterCriteria)
    (hscores : ∀ x ∈ xs, 0 ≤ x.relevanceScore) (hmin : 0 ≤ c.minScore) :
    (applyFilters xs c).Perm (xs.filter (qualifies c)) := by
  rw [applyFilters_eq]
  refine (sortStage_perm c _).trans ?_
  have : xs.filter (passes c) = xs.filter (qualifies c) :=
    List.filter_congr (fun x hx => passes_eq_qualifies c x (hscores x hx) hmin)
  rw [this]

/-- C2. In `relevance` mode the output of `applyFilters` is ordered by non-increasing
`relevanceScore`, and the output items of any one score are the items of that score of the full
set that pass the filters, in the order of the full set. -/
theorem applyFilters_relevance_sorted_stable (xs : List SearchResultItem) (c : FilterCriteria)
    (hsort : c.sortBy = "relevance") :
    (applyFilters xs c).Pairwise (fun a b => b.relevanceScore ≤ a.relevanceScore)
    ∧ (∀ v : ℚ, (applyFilters xs c).filter (fun x => decide (x.relevanceScore = v))
        = xs.filter (fun x => passes c x && decide (x.relevanceScore = v)))
    ∧ (∀ v : ℚ, ((applyFilters xs c).filter (fun x => decide (x.relevanceScore = v))).Sublist
        xs) := by
  have hstage : ∀ l, sortStage c l
      = arraySort (fun a b => some (b.relevanceScore - a.relevanceScore)) l := by
    intro l
    unfold sortStage
    rw [if_pos hsort]
  have hstable : ∀ v : ℚ, (applyFilters xs c).filter (fun x => decide (x.relevanceScore = v))
        = xs.filter (fun x => passes c x && decide (x.relevanceScore = v)) := by
    intro v
    rw [applyFilters_eq, hstage, filter_arraySort, List.filter_filter]
    · apply List.filter_congr
      intro x _
      exact Bool.and_comm _ _
    · intro a b ha hb
      rw [sortCompare_relevance]
      have ha' : a.relevanceScore = v := by simpa using ha
      have hb' : b.relevanceScore = v := by simpa using hb
      rw [ha', hb']
      simp
  refine ⟨?_, hstable, ?_⟩
  · rw [applyFilters_eq, hstage]
    have h := arraySort_pairwise
      (fun a b : SearchResultItem => some (b.relevanceScore - a.relevanceScore)) (fun _ => True)
      (by
        intro a b _ _ h
        rw [sortCompare_relevance] at *
        linarith)
      (by
        intro a b d _ _ _ h1 h2
        rw [sortCompare_relevance] at *
        linarith)
      (xs.filter (passes c)) (fun _ _ => trivial)
    refine h.imp ?_
    intro a b hab
    rw [sortCompare_relevance] at hab
    linarith
  · intro v
    rw [hstable v]
    exact List.filter_sublist xs

/-- The witness of C2: the example result set in `relevance` mode. -/
theorem applyFilters_relevance_sorted_stable_witness :
    (defaultFilters.sortBy = "relevance")
    ∧ (applyFilters exampleResults defaultFilters).Pairwise
        (fun a b => b.relevanceScore ≤ a.relevanceScore) :=
  ⟨rfl, (applyFilters_relevance_sorted_stable exampleResults defaultFilters rfl).1⟩

/-- The witness of C1: the example result set with category = "Herbs" and minScore = 20. -/
theorem applyFilters_perm_qualifying_witness :
    ((∀ x ∈ exampleResults, 0 ≤ x.relevanceScore) ∧ (0 : ℚ) ≤ 20)
    ∧ (applyFilters exampleResults
        { category := "Herbs", author := "all", sortBy := "relevance", minScore := 20 }).Perm
      (exampleResults.filter
        (qualifies { category := "Herbs", author := "all", sortBy := "relevance",
                     minScore := 20 })) :=
  ⟨⟨by simp [exampleResults], by norm_num⟩,
    applyFilters_perm_qualifying exampleResults
      { category := "Herbs", author := "all", sortBy := "relevance", minScore := 20 }
      (by simp [exampleResults]) (by norm_num)⟩

theorem filter_passes_sortStage (c : FilterCriteria) (xs : List SearchResultItem) :
    (sortStage c (xs.filter (passes c))).filter (passes c) = sortStage c (xs.filter (passes c)) := by
  apply List.filter_eq_self.2
  intro x hx
  exact (List.mem_filter.1 (((sortStage_perm c _).mem_iff).1 hx)).2

theorem sortCompare_recent_valid (a b : SearchResultItem) (ta tb : Int)
    (ha : a.createdAt = some ta) (hb : b.createdAt = some tb) :
    sortCompare (fun a b => dateDiff b a) a b = (tb : ℚ) - (ta : ℚ) := by
  unfold sortCompare dateDiff
  simp [ha, hb]

/-- The sort of the pipeline leaves its own output alone, because that output is sorted: in
`relevance` mode always, in `recent` mode when every creation date is valid. -/
theorem sortStage_sorted_idem (c : FilterCriteria) (l : List SearchResultItem)
    (hvalid : c.sortBy = "recent" → ∀ x ∈ l, x.createdAt.isSome = true) :
    sortStage c (sortStage c l) = sortStage c l := by
  unfold sortStage
  split
  · apply arraySort_eq_self
    apply List.Pairwise.chain'
    exact arraySort_pairwise _ (fun _ => True)
      (by
        intro a b _ _ h
        rw [sortCompare_relevance] at *
        linarith)
      (by
        intro a b d _ _ _ h1 h2
        rw [sortCompare_relevance] at *
        linarith)
      l (fun _ _ => trivial)
  · split
    · rename_i hrecent
      have hget : ∀ x : SearchResultItem, x.createdAt.isSome = true →
          ∃ t, x.createdAt = some t := fun x hx => Option.isSome_iff_exists.1 hx
      apply arraySort_eq_self
      apply List.Pairwise.chain'
      exact arraySort_pairwise _ (fun x => x.createdAt.isSome = true)
        (fun a b _ _ h => sortCompare_recent_total a b h)
        (by
          intro a b d ha hb hd h1 h2
          obtain ⟨ta, ha⟩ := hget a ha
          obtain ⟨tb, hb⟩ := hget b hb
          obtain ⟨td, hd⟩ := hget d hd
          rw [sortCompare_recent_valid a b ta tb ha hb] at h1
          rw [sortCompare_recent_valid b d tb td hb hd] at h2
          rw [sortCompare_recent_valid a d ta td ha hd]
          linarith)
        l (hvalid hrecent)
    · rfl

/-- C3. `applyFilters` is idempotent: applied to its own output with the same criteria it gives
that output again, for `sortBy = relevance`, for `sortBy = recent` and for any other value of
`sortBy`. In `recent` mode the statement is made for result sets whose creation dates are all
valid: there the comparator is consistent and the sorted order is the same in every engine,
whereas for a comparator that returns `NaN` ECMAScript leaves the order to the engine. -/
theorem applyFilters_idempotent (xs : List SearchResultItem) (c : FilterCriteria)
    (hvalid : c.sortBy = "recent" → ∀ x ∈ xs, x.createdAt.isSome = true) :
    applyFilters (applyFilters xs c) c = applyFilters xs c := by
  have hpass : c.sortBy = "recent" → ∀ x ∈ xs.filter (passes c), x.createdAt.isSome = true :=
    fun hrecent x hx => hvalid hrecent x (List.mem_filter.1 hx).1
  rw [applyFilters_eq xs c, applyFilters_eq, filter_passes_sortStage,
    sortStage_sorted_idem c _ hpass]

/-- The witness of C3: the example result set, whose dates are valid, in `recent` mode. -/
theorem applyFilters_idempotent_witness :
    (({ defaultFilters with sortBy := "recent" } : FilterCriteria).sortBy = "recent" →
      ∀ x ∈ exampleResults, x.createdAt.isSome = true)
    ∧ applyFilters (applyFilters exampleResults { defaultFilters with sortBy := "recent" })
          { defaultFilters with sortBy := "recent" }
        = applyFilters exampleResults { defaultFilters with sortBy := "recent" } :=
  ⟨fun _ => by simp [exampleResults],
    applyFilters_idempotent exampleResults { defaultFilters with sortBy := "recent" }
      (fun _ => by simp [exampleResults])⟩

theorem FilterAction.apply_full (s : SearchResultsState) (a : FilterAction) :
    (a.apply s).searchResultsFromDataBase = s.searchResultsFromDataBase := by
  cases a <;> rfl

theorem FilterAction.apply_filters (s : SearchResultsState) (a : FilterAction) :
    (a.apply s).filters = a.criteria s.filters := by
  cases a <;> rfl

theorem FilterAction.apply_visible (s : SearchResultsState) (a : FilterAction) :
    (a.apply s).filteredResults = applyFilters s.searchResultsFromDataBase (a.apply s).filters := by
  cases a <;> rfl

theorem runFilterActions_full (s : SearchResultsState) (actions : List FilterAction) :
    (runFilterActions s actions).searchResultsFromDataBase = s.searchResultsFromDataBase := by
  induction actions generalizing s with
  | nil => rfl
  | cons a rest ih =>
    show (runFilterActions (a.apply s) rest).searchResultsFromDataBase = _
    rw [ih, FilterAction.apply_full]

theorem runFilterActions_filters (s : SearchResultsState) (actions : List FilterAction) :
    (runFilterActions s actions).filters = actions.foldl FilterAction.criteria s.filters := by
  induction actions generalizing s with
  | nil => rfl
  | cons a rest ih =>
    show (runFilterActions (a.apply s) rest).filters = _
    rw [ih, FilterAction.apply_filters]
    rfl

theorem runFilterActions_concat (s : SearchResultsState) (actions : List FilterAction)
    (a : FilterAction) :
    runFilterActions s (actions ++ [a]) = a.apply (runFilterActions s actions) := by
  unfold runFilterActions
  rw [List.foldl_append]
  rfl

/-- C4. After a non-empty sequence of filter actions the visible list is `applyFilters` applied
once to the full result set with the final criteria; the full result set is the one before the
actions, and the final criteria are those the actions produce from the initial criteria, so the
visible list depends neither on the visible list before nor on the lists in between. -/
theorem runFilterActions_visible (s : SearchResultsState) (actions : List FilterAction)
    (hne : actions ≠ []) :
    (runFilterActions s actions).filteredResults
        = applyFilters s.searchResultsFromDataBase (runFilterActions s actions).filters
    ∧ (runFilterActions s actions).filters = actions.foldl FilterAction.criteria s.filters
    ∧ (runFilterActions s actions).searchResultsFromDataBase = s.searchResultsFromDataBase := by
  refine ⟨?_, runFilterActions_filters s actions, runFilterActions_full s actions⟩
  rcases List.eq_nil_or_concat actions with h | ⟨init, a, h⟩
  · exact absurd h hne
  · subst h
    rw [List.concat_eq_append, runFilterActions_concat, FilterAction.apply_visible,
      runFilterActions_full]

/-- The witness of C4: a category change followed by "Clear Filters", from a state whose visible
list is stale. -/
theorem runFilterActions_visible_witness :
    ([FilterAction.change (.category "Herbs"), FilterAction.clear] ≠ [])
    ∧ (runFilterActions
          { searchResultsFromDataBase := exampleResults, filteredResults := [],
            filters := defaultFilters,
            availableFilters := { categories := [], authors := [], scoreRanges := [] } }
          [FilterAction.change (.category "Herbs"), FilterAction.clear]).filteredResults
        = applyFilters exampleResults defaultFilters :=
  ⟨by simp,
    (runFilterActions_visible
      { searchResultsFromDataBase := exampleResults, filteredResults := [],
        filters := defaultFilters,
        availableFilters := { categories := [], authors := [], scoreRanges := [] } }
      [FilterAction.change (.category "Herbs"), FilterAction.clear] (by simp)).1⟩

/-- C5. With `minScore = 0`, category "all", author "all" and `sortBy = relevance` the output of
`applyFilters` is a permutation of the whole result set, in non-increasing order of
`relevanceScore`. -/
theorem applyFilters_default_full_sorted (xs : List SearchResultItem) :
    (applyFilters xs
        { category := "all", author := "all", sortBy := "relevance", minScore := 0 }).Perm xs
    ∧ (applyFilters xs
        { category := "all", author := "all", sortBy := "relevance", minScore := 0 }).Pairwise
        (fun a b => b.relevanceScore ≤ a.relevanceScore) := by
  have hall : xs.filter
      (passes { category := "all", author := "all", sortBy := "relevance", minScore := 0 })
      = xs := by
    apply List.filter_eq_self.2
    intro x _
    simp [passes]
  constructor
  · rw [applyFilters_eq, hall]
    exact sortStage_perm _ xs
  · rw [applyFilters_eq, hall]
    have h := arraySort_pairwise
      (fun a b : SearchResultItem => some (b.relevanceScore - a.relevanceScore)) (fun _ => True)
      (by
        intro a b _ _ h
        rw [sortCompare_relevance] at *
        linarith)
      (by
        intro a b d _ _ _ h1 h2
        rw [sortCompare_relevance] at *
        linarith)
      xs (fun _ _ => trivial)
    unfold sortStage
    rw [if_pos rfl]
    refine h.imp ?_
    intro a b hab
    rw [sortCompare_relevance] at hab
    linarith

/-- In `recent` mode, with valid creation dates, every item of the output is at least as new as
the items behind it. -/
theorem applyFilters_recent_pairwise (xs : List SearchResultItem) (c : FilterCriteria)
    (hvalid : ∀ x ∈ xs, x.createdAt.isSome = true) (hsort : c.sortBy = "recent") :
    (applyFilters xs c).Pairwise
      (fun a b => ∃ ta tb : Int, a.createdAt = some ta ∧ b.createdAt = some tb ∧ tb ≤ ta) := by
  have hne : c.sortBy ≠ "relevance" := by
    rw [hsort]
    decide
  have hstage : ∀ l, sortStage c l = arraySort (fun a b => dateDiff b a) l := by
    intro l
    unfold sortStage
    rw [if_neg hne, if_pos hsort]
  rw [applyFilters_eq, hstage]
  have hget : ∀ x : SearchResultItem, x.createdAt.isSome = true → ∃ t, x.createdAt = some t :=
    fun x hx => Option.isSome_iff_exists.1 hx
  have h := arraySort_pairwise (fun a b : SearchResultItem => dateDiff b a)
    (fun x => x.createdAt.isSome = true)
    (fun a b _ _ h => sortCompare_recent_total a b h)
    (by
      intro a b d ha hb hd h1 h2
      obtain ⟨ta, ha⟩ := hget a ha
      obtain ⟨tb, hb⟩ := hget b hb
      obtain ⟨td, hd⟩ := hget d hd
      rw [sortCompare_recent_valid a b ta tb ha hb] at h1
      rw [sortCompare_recent_valid b d tb td hb hd] at h2
      rw [sortCompare_recent_valid a d ta td ha hd]
      linarith)
    (xs.filter (passes c)) (fun y hy => hvalid y (List.mem_filter.1 hy).1)
  have hmem : ∀ y ∈ arraySort (fun a b : SearchResultItem => dateDiff b a)
      (xs.filter (passes c)), y.createdAt.isSome = true :=
    fun y hy => hvalid y (List.mem_filter.1 ((mem_arraySort _).1 hy)).1
  refine List.Pairwise.imp_of_mem ?_ h
  intro a b ha hb hab
  obtain ⟨ta, hta⟩ := hget a (hmem a ha)
  obtain ⟨tb, htb⟩ := hget b (hmem b hb)
  refine ⟨ta, tb, hta, htb, ?_⟩
  rw [sortCompare_recent_valid a b ta tb hta htb] at hab
  have : (tb : ℚ) ≤ (ta : ℚ) := by linarith
  exact_mod_cast this

/-- C6. In `recent` mode, on a result set whose items all carry a valid creation date, the
output of `applyFilters` holds the items of the full set that pass the filters, each as often as
the full set holds it, ordered by non-increasing creation time, newest first; items of the same
creation time keep the order of the full set. -/
theorem applyFilters_recent_sorted (xs : List SearchResultItem) (c : FilterCriteria)
    (hvalid : ∀ x ∈ xs, x.createdAt.isSome = true) (hsort : c.sortBy = "recent") :
    (applyFilters xs c).Perm (xs.filter (passes c))
    ∧ (applyFilters xs c).Pairwise
        (fun a b => ∃ ta tb : Int, a.createdAt = some ta ∧ b.createdAt = some tb ∧ tb ≤ ta)
    ∧ (∀ t : Int, (applyFilters xs c).filter (fun x => decide (x.createdAt = some t))
        = xs.filter (fun x => passes c x && decide (x.createdAt = some t))) := by
  refine ⟨?_, applyFilters_recent_pairwise xs c hvalid hsort, ?_⟩
  · rw [applyFilters_eq]
    exact sortStage_perm c _
  · intro t
    have hne : c.sortBy ≠ "relevance" := by
      rw [hsort]
      decide
    have hstage : ∀ l, sortStage c l = arraySort (fun a b => dateDiff b a) l := by
      intro l
      unfold sortStage
      rw [if_neg hne, if_pos hsort]
    rw [applyFilters_eq, hstage, filter_arraySort, List.filter_filter]
    · apply List.filter_congr
      intro x _
      exact Bool.and_comm _ _
    · intro a b ha hb
      have ha' : a.createdAt = some t := by simpa using ha
      have hb' : b.createdAt = some t := by simpa using hb
      rw [sortCompare_recent_valid a b t t ha' hb']
      simp

/-- The witness of C6: the example result set in `recent` mode; its three items come out in the
order of their creation times 7, 5, 2. -/
theorem applyFilters_recent_sorted_witness :
    ((∀ x ∈ exampleResults, x.createdAt.isSome = true)
      ∧ ({ defaultFilters with sortBy := "recent" } : FilterCriteria).sortBy = "recent")
    ∧ (applyFilters exampleResults { defaultFilters with sortBy := "recent" }).Perm
        (exampleResults.filter (passes { defaultFilters with sortBy := "recent" }))
    ∧ (applyFilters exampleResults { defaultFilters with sortBy := "recent" }).Pairwise
        (fun a b => ∃ ta tb : Int, a.createdAt = some ta ∧ b.createdAt = some tb ∧ tb ≤ ta)
    ∧ (applyFilters exampleResults { defaultFilters with sortBy := "recent" }).map
        (fun x => x.createdAt) = [some 7, some 5, some 2] :=
  ⟨⟨by simp [exampleResults], rfl⟩,
    (applyFilters_recent_sorted exampleResults { defaultFilters with sortBy := "recent" }
      (by simp [exampleResults]) rfl).1,
    (applyFilters_recent_sorted exampleResults { defaultFilters with sortBy := "recent" }
      (by simp [exampleResults]) rfl).2.1,
    by
      simp [applyFilters, defaultFilters, exampleResults, arraySort, sortInsert, sortCompare,
        dateDiff]
      norm_num⟩

/-! ## The text highlighter -/

/-- The loop of `replace` does not depend on its fuel, once the fuel covers the string: the scan
of a non-empty pattern always ends. -/
theorem replaceLoop_fuel (pattern : RegExp) (hp : pattern.atoms ≠ []) :
    ∀ (fuel₁ fuel₂ : Nat) (s : List Char), s.length ≤ fuel₁ → s.length ≤ fuel₂ →
      replaceLoop pattern fuel₁ s = replaceLoop pattern fuel₂ s := by
  intro fuel₁
  induction fuel₁ with
  | zero =>
    intro fuel₂ s h₁ _
    have hs : s = [] := List.eq_nil_of_length_eq_zero (Nat.le_zero.1 h₁)
    subst hs
    cases fuel₂ <;> rfl
  | succ n ih =>
    intro fuel₂ s h₁ h₂
    cases s with
    | nil => cases fuel₂ <;> rfl
    | cons c cs =>
      cases fuel₂ with
      | zero => simp at h₂
      | succ m =>
        have hn : cs.length ≤ n := by simpa using h₁
        have hm : cs.length ≤ m := by simpa using h₂
        have hlen : 0 < pattern.atoms.length := List.length_pos.2 hp
        have hdrop : ((c :: cs).drop pattern.atoms.length).length ≤ cs.length := by
          rw [List.length_drop, List.length_cons]
          omega
        simp only [replaceLoop]
        split
        · rw [ih m _ (le_trans hdrop hn) (le_trans hdrop hm)]
        · rw [ih m cs hn hm]

theorem scanPattern_plain (term : List Char) (h : ∀ c ∈ term, c ∉ syntaxCharacters) :
    ∀ count : Nat, scanPattern (term ++ [')']) 1 count none
      = some { atoms := term.map PatternAtom.char, capture := count + term.length } := by
  induction term with
  | nil =>
    intro count
    simp [scanPattern]
  | cons c cs ih =>
    intro count
    have hc : c ∉ syntaxCharacters := h c (List.mem_cons_self _ _)
    have hopen : c ≠ '(' := by
      intro hd
      apply hc
      rw [hd]
      decide
    have hclose : c ≠ ')' := by
      intro hd
      apply hc
      rw [hd]
      decide
    have hdot : c ≠ '.' := by
      intro hd
      apply hc
      rw [hd]
      decide
    have hcs := ih (fun d hd => h d (List.mem_cons_of_mem _ hd)) (count + 1)
    have hcount : count + 1 + cs.length = count + (cs.length + 1) := by omega
    rw [hcount] at hcs
    simp only [List.cons_append, scanPattern, if_neg hopen, if_neg hclose, if_neg hdot,
      if_neg hc, List.append_eq, hcs, Option.map_some', List.map_cons, List.length_cons]

/-- A term without regex syntax characters compiles to the pattern of its own characters, and
`$1` is the whole match. -/
theorem compileRegExp_plain (term : List Char) (h : ∀ c ∈ term, c ∉ syntaxCharacters) :
    compileRegExp term
      = some { atoms := term.map PatternAtom.char, capture := term.length } := by
  have hscan := scanPattern_plain term h 0
  simp only [Nat.zero_add] at hscan
  show scanPattern ('(' :: (term ++ [')'])) 0 0 none = _
  simp only [scanPattern, if_true, List.append_eq]
  exact hscan

/-- The terms that are empty are skipped by the loop over the terms. -/
theorem highlightTerms_filter (terms : List (List Char)) (highlightedText : List Char) :
    highlightTerms terms highlightedText
      = highlightTerms (terms.filter (fun term => decide (term.length > 0))) highlightedText := by
  induction terms generalizing highlightedText with
  | nil => rfl
  | cons term rest ih =>
    by_cases h : term.length > 0
    · rw [List.filter_cons_of_pos (by simpa using h)]
      simp only [highlightTerms, if_pos h]
      cases compileRegExp term with
      | none => rfl
      | some pattern => exact ih _
    · rw [List.filter_cons_of_neg (by simpa using h)]
      simp only [highlightTerms, if_neg h]
      exact ih _

theorem split_ne_nil (sep : Char) (s : List Char) : split sep s ≠ [] := by
  cases s with
  | nil => simp [split]
  | cons c cs =>
    unfold split
    split
    · simp
    · split <;> simp

/-- The runs read with a run in progress, in terms of the pieces of `split`. -/
theorem runsFrom_eq_split (sep : Char) (run s : List Char) :
    ∀ piece pieces, split sep s = piece :: pieces →
      runsFrom (fun c => decide (c = sep)) run s
        = ((run ++ piece) :: pieces).filter (fun term => decide (term.length > 0)) := by
  induction s generalizing run with
  | nil =>
    intro piece pieces h
    simp only [split, List.cons.injEq] at h
    obtain ⟨rfl, rfl⟩ := h
    cases run <;> simp [runsFrom]
  | cons c cs ih =>
    intro piece pieces h
    obtain ⟨t, ts, hts⟩ : ∃ t ts, split sep cs = t :: ts := by
      cases hsp : split sep cs with
      | nil => exact absurd hsp (split_ne_nil sep cs)
      | cons t ts => exact ⟨t, ts, rfl⟩
    by_cases hc : c = sep
    · simp only [split, if_pos hc, List.cons.injEq] at h
      obtain ⟨rfl, rfl⟩ := h
      have h0 := ih [] t ts hts
      simp only [List.nil_append] at h0
      simp only [runsFrom, hc, decide_True, if_true, h0, hts]
      cases run <;> simp
    · simp only [split, if_neg hc, hts, List.cons.injEq] at h
      obtain ⟨rfl, rfl⟩ := h
      have h1 := ih (run ++ [c]) t ts hts
      simp only [runsFrom, hc, decide_False, Bool.false_eq_true, if_false, h1]
      simp

/-- The non-empty pieces of `split` are the maximal runs of characters other than the
separator. -/
theorem filter_split_eq_maximalRuns (sep : Char) (s : List Char) :
    (split sep s).filter (fun term => decide (term.length > 0))
      = maximalRuns (fun c => decide (c = sep)) s := by
  cases hsp : split sep s with
  | nil => exact absurd hsp (split_ne_nil sep s)
  | cons t ts =>
    unfold maximalRuns
    rw [runsFrom_eq_split sep [] s t ts hsp]
    rfl

set_option maxRecDepth 100000

/-- A later term is matched in the text that the terms before it have marked up: for the text
"a" and the query "a r", the term "r" is wrapped three times inside the markers of "a". -/
theorem highlightText_two_terms :
    highlightText "a".toList (some "a r".toList)
      = some (Rendered.html
          ("<ma<mark class=\"bg-yellow-200 rounded\">r</mark>k class=\"bg-yellow-200 "
            ++ "<mark class=\"bg-yellow-200 rounded\">r</mark>ounded\">a</ma"
            ++ "<mark class=\"bg-yellow-200 rounded\">r</mark>k>").toList) := by
  decide

/-- C7, at the failing input: for the text "xqz" and the one-term query "x)q(z" the pattern is
`(x)q(z)`, the match is the whole text and `$1` is "x" alone, so the match is replaced by the
marked-up "x": the characters "q" and "z" of the source text are gone from the markup, and the
source text is not what is left of the markup when characters are removed from it, whichever
they are. -/
theorem highlightText_drops_text :
    highlightText "xqz".toList (some "x)q(z".toList)
      = some (Rendered.html "<mark class=\"bg-yellow-200 rounded\">x</mark>".toList)
    ∧ 'q' ∉ "<mark class=\"bg-yellow-200 rounded\">x</mark>".toList
    ∧ 'z' ∉ "<mark class=\"bg-yellow-200 rounded\">x</mark>".toList
    ∧ ¬ List.Sublist "xqz".toList "<mark class=\"bg-yellow-200 rounded\">x</mark>".toList := by
  refine ⟨by decide, by decide, by decide, ?_⟩
  intro h
  have hq : 'q' ∈ "<mark class=\"bg-yellow-200 rounded\">x</mark>".toList :=
    h.subset (by decide)
  exact absurd hq (by decide)

/-- C8, at the failing input: for the text "ab" and the one-term query "." the term is run as a
pattern, so both characters are wrapped although "." occurs nowhere in "ab". -/
theorem highlightText_term_is_pattern :
    highlightText "ab".toList (some ".".toList)
      = some (Rendered.html
          ("<mark class=\"bg-yellow-200 rounded\">a</mark>"
            ++ "<mark class=\"bg-yellow-200 rounded\">b</mark>").toList) := by
  decide

/-- C9. With a missing query (`null` or `undefined`) or the empty query, `highlightText` returns
the source text itself, with no marker. -/
theorem highlightText_no_query (text : List Char) :
    highlightText text none = some (Rendered.text text)
    ∧ highlightText text (some []) = some (Rendered.text text) :=
  ⟨rfl, rfl⟩

/-- C10 as stated fails: in the query "a", tab, "b" the tab does not separate two terms; the one
term highlighted is the whole query. -/
theorem highlightedTerms_tab_not_separator :
    highlightedTerms ['a', '\t', 'b'] = [['a', '\t', 'b']]
    ∧ maximalRuns Char.isWhitespace ['a', '\t', 'b'] = [['a'], ['b']]
    ∧ highlightedTerms ['a', '\t', 'b'] ≠ maximalRuns Char.isWhitespace ['a', '\t', 'b'] := by
  refine ⟨by decide, by decide, by decide⟩

/-- C10, amended. The terms that `highlightText` highlights are exactly the maximal runs of
characters other than the space character of the lower-cased query, however many spaces separate
them; the marked-up text is the result of replacing these terms in turn. -/
theorem highlightedTerms_eq_space_runs (text query : List Char) :
    highlightedTerms query = maximalRuns (fun c => decide (c = ' ')) (toLowerCase query)
    ∧ highlightText text (some query)
        = if query = [] then some (Rendered.text text)
          else (highlightTerms (maximalRuns (fun c => decide (c = ' ')) (toLowerCase query))
                  text).map Rendered.html := by
  have h := filter_split_eq_maximalRuns ' ' (toLowerCase query)
  refine ⟨h, ?_⟩
  unfold highlightText
  simp only []
  rw [highlightTerms_filter, h]

/-! ## The search box: keyboard -/

theorem handleKeyDown_arrowDown (s : NavBarState)
    (hhi : s.selectedSuggestion ≤ (s.suggestions.length : Int) - 1) :
    (handleKeyDown s Key.arrowDown).1
      = { s with
          selectedSuggestion := min (s.selectedSuggestion + 1) ((s.suggestions.length : Int) - 1) }
      := by
  simp only [handleKeyDown]
  congr 1
  split
  · rw [min_eq_left (by omega)]
  · rw [min_eq_right (by omega)]
    omega

theorem pressKey_arrowDown_eq (k : Nat) :
    ∀ s : NavBarState, s.selectedSuggestion ≤ (s.suggestions.length : Int) - 1 →
      pressKey Key.arrowDown k s
        = { s with
            selectedSuggestion :=
              min (s.selectedSuggestion + (k : Int)) ((s.suggestions.length : Int) - 1) } := by
  induction k with
  | zero =>
    intro s hhi
    simp only [pressKey, Nat.cast_zero, add_zero]
    rw [min_eq_left hhi]
  | succ n ih =>
    intro s hhi
    simp only [pressKey]
    rw [handleKeyDown_arrowDown s hhi, ih _ (min_le_right _ _)]
    simp only []
    congr 1
    push_cast
    rcases le_total (s.selectedSuggestion + 1) ((s.suggestions.length : Int) - 1) with h | h
    · rw [min_eq_left h]
      congr 1
      ring
    · rw [min_eq_right h, min_eq_right (by omega), min_eq_right (by omega)]

/-- C12. From a start index `i` with −1 ≤ i ≤ n − 1, `k` presses of ArrowDown change nothing but
the selection index, which becomes min (i + k) (n − 1): it stays at most n − 1, never decreases,
is n − 1 once `k` exceeds `n`, and nothing changes when there is no candidate. ArrowDown does not
navigate. -/
theorem pressKey_arrowDown (s : NavBarState) (k : Nat)
    (hlo : -1 ≤ s.selectedSuggestion)
    (hhi : s.selectedSuggestion ≤ (s.suggestions.length : Int) - 1) :
    pressKey Key.arrowDown k s
        = { s with
            selectedSuggestion :=
              min (s.selectedSuggestion + (k : Int)) ((s.suggestions.length : Int) - 1) }
    ∧ (pressKey Key.arrowDown k s).selectedSuggestion ≤ (s.suggestions.length : Int) - 1
    ∧ s.selectedSuggestion ≤ (pressKey Key.arrowDown k s).selectedSuggestion
    ∧ (s.suggestions.length < k →
        (pressKey Key.arrowDown k s).selectedSuggestion = (s.suggestions.length : Int) - 1)
    ∧ (s.suggestions = [] → pressKey Key.arrowDown k s = s)
    ∧ (handleKeyDown s Key.arrowDown).2 = [] := by
  have h := pressKey_arrowDown_eq k s hhi
  refine ⟨h, ?_, ?_, ?_, ?_, rfl⟩
  · rw [h]
    exact min_le_right _ _
  · rw [h]
    exact le_min (by omega) hhi
  · intro hk
    rw [h]
    exact min_eq_right (by omega)
  · intro he
    rw [h]
    have hlen : (s.suggestions.length : Int) = 0 := by simp [he]
    have : min (s.selectedSuggestion + (k : Int)) ((s.suggestions.length : Int) - 1)
        = s.selectedSuggestion := by
      rw [min_eq_right (by omega)]
      omega
    rw [this]

/-- The witness of C12: five presses of ArrowDown from the second of three candidates. -/
theorem pressKey_arrowDown_witness :
    (-1 ≤ exampleNavBarState.selectedSuggestion
      ∧ exampleNavBarState.selectedSuggestion
          ≤ (exampleNavBarState.suggestions.length : Int) - 1)
    ∧ (pressKey Key.arrowDown 5 exampleNavBarState).selectedSuggestion
        ≤ (exampleNavBarState.suggestions.length : Int) - 1 :=
  ⟨⟨by decide, by decide⟩, (pressKey_arrowDown exampleNavBarState 5 (by decide) (by decide)).2.1⟩

theorem pressKey_arrowUp_frame (k : Nat) :
    ∀ s : NavBarState, -1 ≤ s.selectedSuggestion →
      -1 ≤ (pressKey Key.arrowUp k s).selectedSuggestion
      ∧ (pressKey Key.arrowUp k s).searchData = s.searchData
      ∧ (pressKey Key.arrowUp k s).suggestions = s.suggestions
      ∧ (pressKey Key.arrowUp k s).showSuggestions = s.showSuggestions
      ∧ (pressKey Key.arrowUp k s).loading = s.loading := by
  induction k with
  | zero =>
    intro s hs
    exact ⟨hs, rfl, rfl, rfl, rfl⟩
  | succ n ih =>
    intro s _
    simp only [pressKey]
    have hstep : -1 ≤ (handleKeyDown s Key.arrowUp).1.selectedSuggestion := by
      simp only [handleKeyDown]
      split <;> omega
    obtain ⟨h1, h2, h3, h4, h5⟩ := ih (handleKeyDown s Key.arrowUp).1 hstep
    exact ⟨h1, h2, h3, h4, h5⟩

/-- C13. For a selection index `i` ≥ −1, ArrowUp gives `i − 1` when `i` > −1 and −1 when `i` is
−1, without navigation; no number of ArrowUp presses takes the index below −1, and they leave the
query text, the candidates and the visibility flag as they were. -/
theorem handleKeyDown_arrowUp (s : NavBarState) (hlo : -1 ≤ s.selectedSuggestion) :
    (s.selectedSuggestion > -1 →
      handleKeyDown s Key.arrowUp
        = ({ s with selectedSuggestion := s.selectedSuggestion - 1 }, []))
    ∧ (s.selectedSuggestion = -1 → handleKeyDown s Key.arrowUp = (s, []))
    ∧ (∀ k : Nat, -1 ≤ (pressKey Key.arrowUp k s).selectedSuggestion
        ∧ (pressKey Key.arrowUp k s).searchData = s.searchData
        ∧ (pressKey Key.arrowUp k s).suggestions = s.suggestions
        ∧ (pressKey Key.arrowUp k s).showSuggestions = s.showSuggestions) := by
  refine ⟨?_, ?_, ?_⟩
  · intro h
    simp only [handleKeyDown, if_pos h]
  · intro h
    have hn : ¬ s.selectedSuggestion > -1 := by omega
    simp only [handleKeyDown, if_neg hn]
    rw [← h]
  · intro k
    obtain ⟨h1, h2, h3, h4, _⟩ := pressKey_arrowUp_frame k s hlo
    exact ⟨h1, h2, h3, h4⟩

/-- The witness of C13: ArrowUp from the second candidate. -/
theorem handleKeyDown_arrowUp_witness :
    (-1 ≤ exampleNavBarState.selectedSuggestion ∧ exampleNavBarState.selectedSuggestion > -1)
    ∧ handleKeyDown exampleNavBarState Key.arrowUp
        = ({ exampleNavBarState with
             selectedSuggestion := exampleNavBarState.selectedSuggestion - 1 }, []) :=
  ⟨⟨by decide, by decide⟩, (handleKeyDown_arrowUp exampleNavBarState (by decide)).1 (by decide)⟩

/-- C16. Escape sets the visibility flag to false and changes nothing else: the query text, the
candidates, the selection index and `loading` are as before, and there is no navigation. -/
theorem handleKeyDown_escape (s : NavBarState) :
    handleKeyDown s Key.escape = ({ s with showSuggestions := false }, [])
    ∧ (handleKeyDown s Key.escape).1.showSuggestions = false
    ∧ (handleKeyDown s Key.escape).1.searchData = s.searchData
    ∧ (handleKeyDown s Key.escape).1.suggestions = s.suggestions
    ∧ (handleKeyDown s Key.escape).1.selectedSuggestion = s.selectedSuggestion
    ∧ (handleKeyDown s Key.escape).1.loading = s.loading
    ∧ (handleKeyDown s Key.escape).2 = [] :=
  ⟨rfl, rfl, rfl, rfl, rfl, rfl, rfl⟩

/-! ## The search box: suggestion requests -/

theorem dropWhile_eq_nil_of_all {α : Type} (p : α → Bool) (l : List α)
    (h : ∀ x ∈ l, p x = true) : l.dropWhile p = [] := by
  induction l with
  | nil => rfl
  | cons x xs ih =>
    rw [List.dropWhile_cons_of_pos (h x (List.mem_cons_self _ _))]
    exact ih (fun y hy => h y (List.mem_cons_of_mem _ hy))

theorem trim_eq_nil_of_blank (query : List Char) (h : ∀ c ∈ query, isWhiteSpace c = true) :
    trim query = [] := by
  unfold trim
  rw [dropWhile_eq_nil_of_all isWhiteSpace query h]
  rfl

/-- Called with a query that is empty or made of white space only, `fetchSuggestions` returns
at once: it posts no request and sets the candidates to the empty list, whatever they were,
leaving the rest of the state alone. -/
theorem fetchSuggestions_blank (s : NavBarState) (query : List Char)
    (hblank : ∀ c ∈ query, isWhiteSpace c = true) :
    fetchSuggestions s query = ({ s with suggestions := [] }, none)
    ∧ (fetchSuggestions s query).2 = none
    ∧ (fetchSuggestions s query).1.suggestions = [] := by
  have h : fetchSuggestions s query = ({ s with suggestions := [] }, none) := by
    unfold fetchSuggestions
    rw [if_pos (trim_eq_nil_of_blank query hblank)]
  refine ⟨h, ?_, ?_⟩ <;> rw [h]

/-- C20. A response that carries a list of `n` items stores as candidates the first min n 5
items of the list, in the order of the list. -/
theorem fetchSuggestionsSettled_take (s : NavBarState) (response : List SearchResultItem) :
    (fetchSuggestionsSettled s (FetchOutcome.resolved (some response))).suggestions
        = response.take 5
    ∧ (fetchSuggestionsSettled s (FetchOutcome.resolved (some response))).suggestions.length
        = min response.length 5
    ∧ (fetchSuggestionsSettled s (FetchOutcome.resolved (some response))).suggestions
        <+: response := by
  refine ⟨rfl, ?_, ?_⟩
  · show (response.take 5).length = min response.length 5
    rw [List.length_take, min_comm]
  · exact List.take_prefix 5 response

/-! ## The search box: Enter -/

/-- C14 as stated fails: Enter on the second of three candidates leaves the three candidates in
the state; the candidate sequence is not cleared. -/
theorem enter_selection_keeps_candidates :
    exampleNavBarState.selectedSuggestion > -1
    ∧ (handleKeyDown exampleNavBarState Key.enter).1.suggestions = exampleResults
    ∧ (handleKeyDown exampleNavBarState Key.enter).1.suggestions ≠ [] := by
  refine ⟨by decide, rfl, ?_⟩
  rw [show (handleKeyDown exampleNavBarState Key.enter).1.suggestions = exampleResults from rfl]
  exact List.cons_ne_nil _ _

/-- C14, amended. With a selection index `i` > −1, Enter navigates to the detail view with the
`i`-th candidate as payload (`undefined` when `i` is past the end), clears the query text and
hides the dropdown; the candidates, the selection index and `loading` stay as they were. -/
theorem handleKeyDown_enter_selection (s : NavBarState) (hsel : s.selectedSuggestion > -1) :
    handleKeyDown s Key.enter
        = ({ s with searchData := [], showSuggestions := false },
            [Navigation.blogDetails (s.suggestions[s.selectedSuggestion.toNat]?)])
    ∧ (∀ suggestion, s.suggestions[s.selectedSuggestion.toNat]? = some suggestion →
        (handleKeyDown s Key.enter).2 = [Navigation.blogDetails (some suggestion)])
    ∧ (handleKeyDown s Key.enter).1.searchData = []
    ∧ (handleKeyDown s Key.enter).1.showSuggestions = false
    ∧ (handleKeyDown s Key.enter).1.suggestions = s.suggestions
    ∧ (handleKeyDown s Key.enter).1.selectedSuggestion = s.selectedSuggestion := by
  have h : handleKeyDown s Key.enter
      = ({ s with searchData := [], showSuggestions := false },
          [Navigation.blogDetails (s.suggestions[s.selectedSuggestion.toNat]?)]) := by
    simp only [handleKeyDown, if_pos hsel, handleSuggestionClick]
  refine ⟨h, ?_, ?_, ?_, ?_, ?_⟩
  · intro suggestion hs
    rw [h, hs]
  all_goals rw [h]

/-- The witness of C14: Enter on the second of three candidates. -/
theorem handleKeyDown_enter_selection_witness :
    exampleNavBarState.selectedSuggestion > -1
    ∧ handleKeyDown exampleNavBarState Key.enter
        = ({ exampleNavBarState with searchData := [], showSuggestions := false },
            [Navigation.blogDetails
              (exampleNavBarState.suggestions[exampleNavBarState.selectedSuggestion.toNat]?)]) :=
  ⟨by decide, (handleKeyDown_enter_selection exampleNavBarState (by decide)).1⟩

/-- C15 as stated fails twice: with the selection index −1 and a query text of two spaces, Enter
neither navigates nor changes the state; with the query text "tea", Enter navigates but leaves
the three candidates in the state. -/
theorem enter_raw_query_not_idle :
    handleKeyDown { exampleNavBarState with selectedSuggestion := -1, searchData := [' ', ' '] }
        Key.enter
      = ({ exampleNavBarState with selectedSuggestion := -1, searchData := [' ', ' '] }, [])
    ∧ (handleKeyDown { exampleNavBarState with selectedSuggestion := -1 } Key.enter).2
        = [Navigation.searchResults "tea".toList]
    ∧ (handleKeyDown { exampleNavBarState with selectedSuggestion := -1 } Key.enter).1.suggestions
        ≠ [] := by
  refine ⟨?_, by decide, by decide⟩
  have hb : trim [' ', ' '] = [] := by decide
  simp [handleKeyDown, handleSearchBlog, hb, exampleNavBarState]

/-- C15, amended. With the selection index −1, Enter on a query text that is not blank navigates
to the result view with the raw query text as payload, clears the query text and hides the
dropdown, the candidates and the selection index staying as they were; on a blank query text it
does nothing. -/
theorem handleKeyDown_enter_raw_query (s : NavBarState) (hsel : s.selectedSuggestion = -1) :
    (trim s.searchData ≠ [] →
      handleKeyDown s Key.enter
          = ({ s with searchData := [], showSuggestions := false },
              [Navigation.searchResults s.searchData])
      ∧ (handleKeyDown s Key.enter).1.suggestions = s.suggestions
      ∧ (handleKeyDown s Key.enter).1.selectedSuggestion = -1)
    ∧ (trim s.searchData = [] → handleKeyDown s Key.enter = (s, [])) := by
  have hn : ¬ s.selectedSuggestion > -1 := by omega
  constructor
  · intro hq
    have h : handleKeyDown s Key.enter
        = ({ s with searchData := [], showSuggestions := false },
            [Navigation.searchResults s.searchData]) := by
      simp only [handleKeyDown, if_neg hn, handleSearchBlog, if_pos hq]
    refine ⟨h, ?_, ?_⟩
    · rw [h]
    · rw [h]
      exact hsel
  · intro hq
    simp only [handleKeyDown, if_neg hn, handleSearchBlog, hq, ne_eq, not_true_eq_false,
      if_false]

/-- The witness of C15: Enter on the query text "tea" with no candidate selected. -/
theorem handleKeyDown_enter_raw_query_witness :
    (({ exampleNavBarState with selectedSuggestion := -1 } : NavBarState).selectedSuggestion = -1
      ∧ trim ({ exampleNavBarState with selectedSuggestion := -1 } : NavBarState).searchData ≠ [])
    ∧ handleKeyDown { exampleNavBarState with selectedSuggestion := -1 } Key.enter
        = ({ exampleNavBarState with
             selectedSuggestion := -1, searchData := [], showSuggestions := false },
            [Navigation.searchResults exampleNavBarState.searchData]) :=
  ⟨⟨rfl, by decide⟩,
    ((handleKeyDown_enter_raw_query { exampleNavBarState with selectedSuggestion := -1 } rfl).1
      (by decide)).1⟩

/-! ## The search box: responses, timers and the selection index -/

theorem NavBar.rerender_state (before : NavBarState) (w : NavBar) :
    (NavBar.rerender before w).state = w.state := by
  unfold NavBar.rerender
  split <;> rfl

theorem NavBar.rerender_inFlight (before : NavBarState) (w : NavBar) :
    (NavBar.rerender before w).inFlight = w.inFlight := by
  unfold NavBar.rerender
  split <;> rfl

/-- An awaited request that ends with a list of items stores the first five of them. -/
theorem NavBar.settles_resolved (w : NavBar) (id : Nat) (response : List SearchResultItem)
    (h : w.inFlight.any (fun request => decide (request.id = id)) = true) :
    (w.settles id (FetchOutcome.resolved (some response))).state.suggestions = response.take 5
    ∧ (w.settles id (FetchOutcome.resolved (some response))).inFlight
        = w.inFlight.filter (fun request => decide (request.id ≠ id)) := by
  unfold NavBar.settles
  rw [if_pos h, NavBar.rerender_state, NavBar.rerender_inFlight]
  exact ⟨rfl, rfl⟩

/-- C17 as stated fails: the queries "a" and "ab" are posted in this order, the response for "ab"
arrives first and the response for "a" after it; the candidates on display are then the two items
of the response for "a", not the item of the response for "ab". -/
theorem NavBar.stale_response_overwrites :
    (NavBar.initial.run staleResponseTrace).sent.map (fun request => request.searchData)
        = ["a".toList, "ab".toList]
    ∧ (NavBar.initial.run staleResponseTrace).state.suggestions = exampleResults.take 2
    ∧ (NavBar.initial.run staleResponseTrace).state.suggestions ≠ exampleResults.drop 2 := by
  refine ⟨by decide, by decide, by decide⟩

/-- C17, amended. The response of every awaited query is stored when it arrives, whether or not
a newer query has been posted: when two queries are awaited and the response of the older one
arrives after the response of the newer one, the candidates are the first five items of the
response of the older query, the one that arrived last. -/
theorem NavBar.last_arrived_response_wins (w : NavBar) (older newer : Nat)
    (olderResponse newerResponse : List SearchResultItem)
    (holder : w.inFlight.any (fun request => decide (request.id = older)) = true)
    (hnewer : w.inFlight.any (fun request => decide (request.id = newer)) = true)
    (horder : older < newer) :
    ((w.settles newer (FetchOutcome.resolved (some newerResponse))).settles older
        (FetchOutcome.resolved (some olderResponse))).state.suggestions
      = olderResponse.take 5 := by
  have h₁ := NavBar.settles_resolved w newer newerResponse hnewer
  refine (NavBar.settles_resolved _ older olderResponse ?_).1
  rw [h₁.2]
  rw [List.any_eq_true] at holder ⊢
  obtain ⟨request, hmem, hid⟩ := holder
  refine ⟨request, List.mem_filter.2 ⟨hmem, ?_⟩, hid⟩
  have hid' : request.id = older := by simpa using hid
  have hne : request.id ≠ newer := by omega
  simpa using hne

/-- The witness of C17: the queries "a" and "ab" are both awaited, and the response for "ab"
arrives before the response for "a". -/
theorem NavBar.last_arrived_response_wins_witness :
    ((NavBar.initial.run twoQueriesTrace).inFlight.any
        (fun request => decide (request.id = 0)) = true
      ∧ (NavBar.initial.run twoQueriesTrace).inFlight.any
        (fun request => decide (request.id = 1)) = true
      ∧ 0 < 1)
    ∧ (((NavBar.initial.run twoQueriesTrace).settles 1
          (FetchOutcome.resolved (some (exampleResults.drop 2)))).settles 0
          (FetchOutcome.resolved (some (exampleResults.take 2)))).state.suggestions
        = (exampleResults.take 2).take 5 :=
  ⟨⟨by decide, by decide, by decide⟩,
    NavBar.last_arrived_response_wins (NavBar.initial.run twoQueriesTrace) 0 1
      (exampleResults.take 2) (exampleResults.drop 2) (by decide) (by decide) (by decide)⟩

/-- The handlers of the keyboard keep a valid selection index valid. -/
theorem indexValid_handleKeyDown (s : NavBarState) (key : Key) (h : indexValid s) :
    indexValid (handleKeyDown s key).1 := by
  unfold indexValid at *
  cases key with
  | arrowDown =>
    simp only [handleKeyDown]
    split <;> omega
  | arrowUp =>
    simp only [handleKeyDown]
    split <;> omega
  | enter =>
    simp only [handleKeyDown, handleSuggestionClick, handleSearchBlog]
    split
    · exact h
    · split <;> exact h
  | escape => exact h
  | other => exact h

/-- A change of the input resets the selection index, which is then valid. -/
theorem indexValid_handleSearchInputs (s : NavBarState) (value : List Char) :
    indexValid (handleSearchInputs s value) :=
  Or.inl rfl

/-- C11, at the failing input: the user types "a", gets two candidates, types on to "ab",
presses ArrowDown twice, and the response for "ab" arrives with one candidate. The selection
index is then 1 with a single candidate, neither −1 nor an index into the candidates, and Enter
navigates to the detail view with an undefined payload. -/
theorem NavBar.index_dangles_after_shorter_response :
    (NavBar.initial.run shrinkingResponseTrace).state.selectedSuggestion = 1
    ∧ (NavBar.initial.run shrinkingResponseTrace).state.suggestions.length = 1
    ∧ ¬ indexValid (NavBar.initial.run shrinkingResponseTrace).state
    ∧ ((NavBar.initial.run shrinkingResponseTrace).step 1000
          (NavBarEvent.keyDown Key.enter)).navigations
        = [Navigation.blogDetails none] := by
  refine ⟨by decide, by decide, by decide, by decide⟩

/-- C18, at the failing input: keystrokes at the times 0, 50, 100 and 250, then silence. Every
keystroke renders the component again, each render makes a debounced function with a timer
variable of its own, and no timer is cleared: four queries are posted, at the times 300, 350, 400
and 550, one for each text typed. -/
theorem NavBar.debounce_posts_every_keystroke :
    (NavBar.initial.typeBurst
        [(0, "t".toList), (50, "tu".toList), (100, "tul".toList), (250, "tuls".toList)]).sent.map
        (fun request => (request.sentAt, request.searchData))
      = [(300, "t".toList), (350, "tu".toList), (400, "tul".toList), (550, "tuls".toList)] := by
  decide

/-! ## Failed and incomplete responses -/

/-- C21 as stated fails: after a failed suggestion fetch the three candidates that were on
display are still the candidates; the candidate sequence is not emptied. -/
theorem rejected_fetch_keeps_candidates :
    (fetchSuggestionsSettled exampleNavBarState FetchOutcome.rejected).suggestions
        = exampleResults
    ∧ (fetchSuggestionsSettled exampleNavBarState FetchOutcome.rejected).suggestions ≠ [] := by
  refine ⟨rfl, ?_⟩
  rw [show (fetchSuggestionsSettled exampleNavBarState FetchOutcome.rejected).suggestions
    = exampleResults from rfl]
  exact List.cons_ne_nil _ _

/-- C21, amended. A failed suggestion fetch is caught: it leaves the candidates, the query text,
the selection index and the visibility flag as they were and only sets `loading` to false. -/
theorem fetchSuggestionsSettled_rejected (s : NavBarState) :
    fetchSuggestionsSettled s FetchOutcome.rejected = { s with loading := false }
    ∧ (fetchSuggestionsSettled s FetchOutcome.rejected).suggestions = s.suggestions
    ∧ (fetchSuggestionsSettled s FetchOutcome.rejected).searchData = s.searchData
    ∧ (fetchSuggestionsSettled s FetchOutcome.rejected).selectedSuggestion
        = s.selectedSuggestion
    ∧ (fetchSuggestionsSettled s FetchOutcome.rejected).showSuggestions = s.showSuggestions :=
  ⟨rfl, rfl, rfl, rfl, rfl⟩

/-- C22 as stated fails: a response without a result list, to a new search on the page that
shows the example result set, leaves the three results as the full set and as the visible list;
to a suggestion query, it leaves the three candidates. -/
theorem missing_list_keeps_results :
    (fetchResults examplePage (SearchOutcome.resolved none none)).results.searchResultsFromDataBase
        = exampleResults
    ∧ (fetchResults examplePage
          (SearchOutcome.resolved none none)).results.searchResultsFromDataBase ≠ []
    ∧ (fetchResults examplePage (SearchOutcome.resolved none none)).results.filteredResults
        = examplePage.results.filteredResults
    ∧ (fetchResults examplePage (SearchOutcome.resolved none none)).results.filteredResults.length
        = 3
    ∧ (fetchSuggestionsSettled exampleNavBarState (FetchOutcome.resolved none)).suggestions
        = exampleResults := by
  refine ⟨rfl, ?_, rfl, ?_, rfl⟩
  · rw [show (fetchResults examplePage
      (SearchOutcome.resolved none none)).results.searchResultsFromDataBase = exampleResults
      from rfl]
    exact List.cons_ne_nil _ _
  · show (applyFilters exampleResults defaultFilters).length = 3
    rw [applyFilters_eq, (sortStage_perm defaultFilters _).length_eq]
    simp [exampleResults, passes, defaultFilters]

/-- C22, amended. A response without a result list is not an error and changes no result: after
it, a new search has the full result set, the visible list, the criteria, the facets and the
metadata it had before, with `error` unset and `loading` false; a suggestion query has the
candidates it had before, with `loading` false. -/
theorem fetchResults_missing_list (page : SearchResultsPage)
    (searchMetadata : Option SearchMetadata) (s : NavBarState) :
    fetchResults page (SearchOutcome.resolved none searchMetadata)
        = { page with loading := false, error := none }
    ∧ (fetchResults page (SearchOutcome.resolved none searchMetadata)).results = page.results
    ∧ (fetchResults page (SearchOutcome.resolved none searchMetadata)).error = none
    ∧ fetchSuggestionsSettled s (FetchOutcome.resolved none) = { s with loading := false }
    ∧ (fetchSuggestionsSettled s (FetchOutcome.resolved none)).suggestions = s.suggestions :=
  ⟨rfl, rfl, rfl, rfl, rfl⟩

/-! ## The facets -/

theorem mathMax_eq_negInfinity (scores : List ℚ) (h : mathMax scores = BandValue.negInfinity) :
    scores = [] := by
  cases scores with
  | nil => rfl
  | cons score rest =>
    simp only [mathMax] at h
    split at h <;> simp at h

/-- The value of `Math.max` is one of its arguments and is at least each of them. -/
theorem mathMax_finite (scores : List ℚ) :
    ∀ best, mathMax scores = BandValue.finite best →
      best ∈ scores ∧ ∀ score ∈ scores, score ≤ best := by
  induction scores with
  | nil =>
    intro best h
    simp [mathMax] at h
  | cons score rest ih =>
    intro best h
    simp only [mathMax] at h
    split at h
    · rename_i hrest
      have hnil := mathMax_eq_negInfinity rest hrest
      subst hnil
      simp only [BandValue.finite.injEq] at h
      subst h
      simp
    · rename_i restBest hrest
      obtain ⟨hmem, hle⟩ := ih restBest hrest
      simp only [BandValue.finite.injEq] at h
      subst h
      constructor
      · rcases le_total score restBest with hc | hc
        · rw [max_eq_right hc]
          exact List.mem_cons_of_mem _ hmem
        · rw [max_eq_left hc]
          exact List.mem_cons_self _ _
      · intro x hx
        rcases List.mem_cons.1 hx with rfl | hx
        · exact le_max_left _ _
        · exact le_trans (hle x hx) (le_max_right _ _)

theorem mathMax_eq (scores : List ℚ) (m : ℚ) (hmem : m ∈ scores)
    (hmax : ∀ score ∈ scores, score ≤ m) : mathMax scores = BandValue.finite m := by
  cases h : mathMax scores with
  | negInfinity =>
    rw [mathMax_eq_negInfinity scores h] at hmem
    simp at hmem
  | finite best =>
    obtain ⟨hb, hle⟩ := mathMax_finite scores best h
    rw [le_antisymm (hmax best hb) (hle m hmem)]

/-! ### Rounding to the nearest double -/

theorem floor_le_roundHalfEven (x : ℚ) : ⌊x⌋ ≤ roundHalfEven x := by
  unfold roundHalfEven
  split_ifs <;> omega

theorem roundHalfEven_le_floor_succ (x : ℚ) : roundHalfEven x ≤ ⌊x⌋ + 1 := by
  unfold roundHalfEven
  split_ifs <;> omega

theorem roundHalfEven_intCast (n : ℤ) : roundHalfEven (n : ℚ) = n := by
  unfold roundHalfEven
  simp

theorem roundHalfEven_mono {x y : ℚ} (h : x ≤ y) : roundHalfEven x ≤ roundHalfEven y := by
  rcases lt_or_eq_of_le (Int.floor_mono h) with hf | hf
  · calc roundHalfEven x ≤ ⌊x⌋ + 1 := roundHalfEven_le_floor_succ x
      _ ≤ ⌊y⌋ := hf
      _ ≤ roundHalfEven y := floor_le_roundHalfEven y
  · unfold roundHalfEven
    rw [hf]
    have hxy : x - (⌊y⌋ : ℚ) ≤ y - (⌊y⌋ : ℚ) := by linarith
    split_ifs <;> first | omega | (exfalso; linarith)

theorem le_roundHalfEven {x : ℚ} {n : ℤ} (h : (n : ℚ) ≤ x) : n ≤ roundHalfEven x := by
  have := roundHalfEven_mono h
  rwa [roundHalfEven_intCast] at this

theorem roundHalfEven_le {x : ℚ} {n : ℤ} (h : x ≤ (n : ℚ)) : roundHalfEven x ≤ n := by
  have := roundHalfEven_mono h
  rwa [roundHalfEven_intCast] at this

theorem ulp_pos (q : ℚ) : (0 : ℚ) < 2 ^ (binade q - 52) := zpow_pos (by norm_num) _

theorem binade_mono {a b : ℚ} (ha : 0 < a) (h : a ≤ b) : binade a ≤ binade b :=
  max_le_max (Int.log_mono_right ha h) le_rfl

theorem two_zpow_mul_ulp (k : ℕ) (e : ℤ) :
    (((2 ^ k : ℤ) : ℚ)) * 2 ^ (e - 52) = 2 ^ (e - 52 + k) := by
  rw [zpow_add₀ (by norm_num : (2 : ℚ) ≠ 0), zpow_natCast, mul_comm]
  push_cast
  rfl

theorem roundMagnitude_nonneg {q : ℚ} (hq : 0 ≤ q) : 0 ≤ roundMagnitude q := by
  unfold roundMagnitude
  have hn : (0 : ℤ) ≤ roundHalfEven (q / 2 ^ (binade q - 52)) := by
    apply le_roundHalfEven
    simpa using div_nonneg hq (ulp_pos q).le
  exact mul_nonneg (by exact_mod_cast hn) (ulp_pos q).le

theorem roundMagnitude_le (q : ℚ) : roundMagnitude q ≤ 2 ^ (binade q + 1) := by
  unfold roundMagnitude
  have hlt : q < 2 ^ (binade q + 1) :=
    lt_of_lt_of_le (Int.lt_zpow_succ_log_self (by norm_num) q)
      (zpow_le_zpow_right₀ (by norm_num) (add_le_add_right (le_max_left _ _) 1))
  have hpow : (((2 ^ 53 : ℤ) : ℚ)) * 2 ^ (binade q - 52) = 2 ^ (binade q + 1) := by
    have := two_zpow_mul_ulp 53 (binade q)
    rw [this]
    congr 1
    push_cast
    ring
  have hn : roundHalfEven (q / 2 ^ (binade q - 52)) ≤ (2 ^ 53 : ℤ) := by
    apply roundHalfEven_le
    rw [div_le_iff₀ (ulp_pos q), hpow]
    exact hlt.le
  calc (roundHalfEven (q / 2 ^ (binade q - 52)) : ℚ) * 2 ^ (binade q - 52)
      ≤ ((2 ^ 53 : ℤ) : ℚ) * 2 ^ (binade q - 52) :=
        mul_le_mul_of_nonneg_right (by exact_mod_cast hn) (ulp_pos q).le
    _ = 2 ^ (binade q + 1) := hpow

theorem le_roundMagnitude {q : ℚ} (hq : 0 < q) (hnormal : -1022 ≤ Int.log 2 q) :
    2 ^ binade q ≤ roundMagnitude q := by
  unfold roundMagnitude
  have hb : binade q = Int.log 2 q := by
    unfold binade
    exact max_eq_left hnormal
  have hle : (2 : ℚ) ^ binade q ≤ q := by
    rw [hb]
    exact_mod_cast Int.zpow_log_le_self (b := 2) (by norm_num) hq
  have hpow : (((2 ^ 52 : ℤ) : ℚ)) * 2 ^ (binade q - 52) = 2 ^ binade q := by
    have := two_zpow_mul_ulp 52 (binade q)
    rw [this]
    congr 1
    push_cast
    ring
  have hn : (2 ^ 52 : ℤ) ≤ roundHalfEven (q / 2 ^ (binade q - 52)) := by
    apply le_roundHalfEven
    rw [le_div_iff₀ (ulp_pos q), hpow]
    exact hle
  calc (2 : ℚ) ^ binade q = ((2 ^ 52 : ℤ) : ℚ) * 2 ^ (binade q - 52) := hpow.symm
    _ ≤ (roundHalfEven (q / 2 ^ (binade q - 52)) : ℚ) * 2 ^ (binade q - 52) :=
        mul_le_mul_of_nonneg_right (by exact_mod_cast hn) (ulp_pos q).le

theorem roundMagnitude_zero : roundMagnitude 0 = 0 := by
  unfold roundMagnitude
  simp [roundHalfEven]

theorem roundMagnitude_mono {a b : ℚ} (ha : 0 ≤ a) (h : a ≤ b) :
    roundMagnitude a ≤ roundMagnitude b := by
  rcases eq_or_lt_of_le ha with h0 | hpos
  · rw [← h0, roundMagnitude_zero]
    exact roundMagnitude_nonneg (le_trans ha h)
  · rcases eq_or_lt_of_le (binade_mono hpos h) with he | he
    · unfold roundMagnitude
      rw [he]
      apply mul_le_mul_of_nonneg_right _ (ulp_pos b).le
      have : roundHalfEven (a / 2 ^ (binade b - 52)) ≤ roundHalfEven (b / 2 ^ (binade b - 52)) :=
        roundHalfEven_mono (div_le_div_of_nonneg_right h (ulp_pos b).le)
      exact_mod_cast this
    · have hnormal : -1022 ≤ Int.log 2 b := by
        by_contra hc
        have hb : binade b = -1022 := by
          unfold binade
          exact max_eq_right (by omega)
        have hlow : -1022 ≤ binade a := by
          unfold binade
          exact le_max_right _ _
        omega
      calc roundMagnitude a ≤ 2 ^ (binade a + 1) := roundMagnitude_le a
        _ ≤ 2 ^ binade b := zpow_le_zpow_right₀ (by norm_num) (by omega)
        _ ≤ roundMagnitude b := le_roundMagnitude (lt_of_lt_of_le hpos h) hnormal

theorem roundDouble_of_nonneg {q : ℚ} (hq : 0 ≤ q) : roundDouble q = roundMagnitude q := by
  unfold roundDouble
  rw [if_neg (not_lt.2 hq)]

theorem roundDouble_mono {a b : ℚ} (ha : 0 ≤ a) (h : a ≤ b) : roundDouble a ≤ roundDouble b := by
  rw [roundDouble_of_nonneg ha, roundDouble_of_nonneg (le_trans ha h)]
  exact roundMagnitude_mono ha h

theorem binade_eq {q : ℚ} {e : ℤ} (hq : 0 < q) (hlo : (2 : ℚ) ^ e ≤ q)
    (hhi : q < (2 : ℚ) ^ (e + 1)) (he : -1022 ≤ e) : binade q = e := by
  have h1 : e ≤ Int.log 2 q :=
    (Int.zpow_le_iff_le_log (b := 2) (by norm_num) hq).1 (by exact_mod_cast hlo)
  have h2 : Int.log 2 q < e + 1 :=
    (Int.lt_zpow_iff_log_lt (b := 2) (by norm_num) hq).1 (by exact_mod_cast hhi)
  unfold binade
  rw [max_eq_left (by omega)]
  omega

/-- The rounding of a number whose binade is known and normal. -/
theorem roundDouble_eq {q : ℚ} {e : ℤ} (hq : 0 < q) (hlo : (2 : ℚ) ^ e ≤ q)
    (hhi : q < (2 : ℚ) ^ (e + 1)) (he : -1022 ≤ e) :
    roundDouble q = roundHalfEven (q / 2 ^ (e - 52)) * 2 ^ (e - 52) := by
  rw [roundDouble_of_nonneg hq.le]
  unfold roundMagnitude
  rw [binade_eq hq hlo hhi he]

/-- The products of the maximum score 3: 0.8999999999999999, 1.5 and 2.0999999999999996. -/
theorem roundDouble_three :
    roundDouble (3 * double03) = 8106479329266892 / 9007199254740992
    ∧ roundDouble (3 * double05) = 3 / 2
    ∧ roundDouble (3 * double07) = 1182194902184755 / 562949953421312 := by
  refine ⟨?_, ?_, ?_⟩
  · rw [roundDouble_eq (e := -1) (by norm_num [double03]) (by norm_num [double03])
      (by norm_num [double03]) (by norm_num)]
    norm_num [roundHalfEven, double03]
  · rw [roundDouble_eq (e := 0) (by norm_num [double05]) (by norm_num [double05])
      (by norm_num [double05]) (by norm_num)]
    norm_num [roundHalfEven, double05]
  · rw [roundDouble_eq (e := 1) (by norm_num [double07]) (by norm_num [double07])
      (by norm_num [double07]) (by norm_num)]
    norm_num [roundHalfEven, double07]

/-- The score bands of a result set with maximum score `m`. -/
theorem scoreRanges_of_max (results : List SearchResultItem) (m : ℚ)
    (hmem : m ∈ results.map (fun r => r.relevanceScore))
    (hmax : ∀ r ∈ results, r.relevanceScore ≤ m) :
    scoreRanges results
      = [{ label := "All", value := BandValue.finite 0 },
         { label := "Good Matches", value := BandValue.finite (roundDouble (m * double03)) },
         { label := "Better Matches", value := BandValue.finite (roundDouble (m * double05)) },
         { label := "Best Matches", value := BandValue.finite (roundDouble (m * double07)) }] := by
  have hm : mathMax (results.map (fun r => r.relevanceScore)) = BandValue.finite m := by
    apply mathMax_eq _ m hmem
    intro score hscore
    obtain ⟨r, hr, rfl⟩ := List.mem_map.1 hscore
    exact hmax r hr
  simp only [scoreRanges, hm, BandValue.times]

/-- C23 as stated fails: for a result set with maximum score 3 the bands Good Matches and Best
Matches are the doubles 0.8999999999999999 and 2.0999999999999996 (here as fractions), not
0.3·3 = 0.9 and 0.7·3 = 2.1. -/
theorem scoreRanges_not_exact :
    scoreRanges scoreThreeResults
      = [{ label := "All", value := BandValue.finite 0 },
         { label := "Good Matches",
           value := BandValue.finite (8106479329266892 / 9007199254740992) },
         { label := "Better Matches", value := BandValue.finite (3 / 2) },
         { label := "Best Matches",
           value := BandValue.finite (1182194902184755 / 562949953421312) }]
    ∧ scoreRanges scoreThreeResults
      ≠ [{ label := "All", value := BandValue.finite 0 },
         { label := "Good Matches", value := BandValue.finite (3 * (3 / 10)) },
         { label := "Better Matches", value := BandValue.finite (3 * (5 / 10)) },
         { label := "Best Matches", value := BandValue.finite (3 * (7 / 10)) }] := by
  have h := scoreRanges_of_max scoreThreeResults 3 (by simp [scoreThreeResults])
    (by norm_num [scoreThreeResults])
  rw [roundDouble_three.1, roundDouble_three.2.1, roundDouble_three.2.2] at h
  refine ⟨h, ?_⟩
  rw [h]
  intro heq
  simp only [List.cons.injEq, ScoreRange.mk.injEq, BandValue.finite.injEq, true_and] at heq
  norm_num at heq

/-- C23, amended. For a result set with non-negative scores whose maximum score is the double
`m`, the score bands are All = 0, Good Matches = m * 0.3, Better Matches = m * 0.5 and Best
Matches = m * 0.7, in this order, each product being the double-precision product: the exact
product of `m` and the double of the literal, rounded to the nearest double. The four values are
non-decreasing and at most `m`. -/
theorem scoreRanges_eq (results : List SearchResultItem) (m : ℚ)
    (hmem : m ∈ results.map (fun r => r.relevanceScore))
    (hmax : ∀ r ∈ results, r.relevanceScore ≤ m)
    (hnonneg : ∀ r ∈ results, 0 ≤ r.relevanceScore)
    (hdouble : roundDouble m = m) :
    scoreRanges results
        = [{ label := "All", value := BandValue.finite 0 },
           { label := "Good Matches", value := BandValue.finite (roundDouble (m * double03)) },
           { label := "Better Matches", value := BandValue.finite (roundDouble (m * double05)) },
           { label := "Best Matches", value := BandValue.finite (roundDouble (m * double07)) }]
    ∧ (0 : ℚ) ≤ roundDouble (m * double03)
    ∧ roundDouble (m * double03) ≤ roundDouble (m * double05)
    ∧ roundDouble (m * double05) ≤ roundDouble (m * double07)
    ∧ roundDouble (m * double07) ≤ m := by
  have h0 : 0 ≤ m := by
    obtain ⟨r, hr, rfl⟩ := List.mem_map.1 hmem
    exact hnonneg r hr
  have h3 : 0 ≤ m * double03 := mul_nonneg h0 (by norm_num [double03])
  have h5 : 0 ≤ m * double05 := mul_nonneg h0 (by norm_num [double05])
  have h7 : 0 ≤ m * double07 := mul_nonneg h0 (by norm_num [double07])
  refine ⟨scoreRanges_of_max results m hmem hmax, ?_, ?_, ?_, ?_⟩
  · rw [roundDouble_of_nonneg h3]
    exact roundMagnitude_nonneg h3
  · exact roundDouble_mono h3
      (mul_le_mul_of_nonneg_left (by norm_num [double03, double05]) h0)
  · exact roundDouble_mono h5
      (mul_le_mul_of_nonneg_left (by norm_num [double05, double07]) h0)
  · calc roundDouble (m * double07) ≤ roundDouble m :=
          roundDouble_mono h7 (by
            have : m * double07 ≤ m * 1 :=
              mul_le_mul_of_nonneg_left (by norm_num [double07]) h0
            simpa using this)
      _ = m := hdouble

/-- The witness of C23: the result set whose maximum score is 3. -/
theorem scoreRanges_eq_witness :
    ((3 : ℚ) ∈ scoreThreeResults.map (fun r => r.relevanceScore)
      ∧ (∀ r ∈ scoreThreeResults, r.relevanceScore ≤ 3)
      ∧ (∀ r ∈ scoreThreeResults, 0 ≤ r.relevanceScore)
      ∧ roundDouble 3 = 3)
    ∧ roundDouble (3 * double03) ≤ roundDouble (3 * double05)
    ∧ roundDouble (3 * double07) ≤ 3 :=
  have hthree : roundDouble 3 = 3 := by
    rw [roundDouble_eq (e := 1) (by norm_num) (by norm_num) (by norm_num) (by norm_num)]
    norm_num [roundHalfEven]
  ⟨⟨by simp [scoreThreeResults], by norm_num [scoreThreeResults],
      by norm_num [scoreThreeResults], hthree⟩,
    (scoreRanges_eq scoreThreeResults 3 (by simp [scoreThreeResults])
      (by norm_num [scoreThreeResults]) (by norm_num [scoreThreeResults]) hthree).2.2.1,
    (scoreRanges_eq scoreThreeResults 3 (by simp [scoreThreeResults])
      (by norm_num [scoreThreeResults]) (by norm_num [scoreThreeResults]) hthree).2.2.2.2⟩

/-- C24. `handleFilterChange` and `clearFilters` leave the facets and the full result set as
they were, and `handleFilterChange` changes the named field of the criteria only. -/
theorem filter_actions_frame (s : SearchResultsState) (u : FilterUpdate)
    (minScore : ℚ) (category author sortBy : String) :
    (handleFilterChange s u).availableFilters = s.availableFilters
    ∧ (handleFilterChange s u).searchResultsFromDataBase = s.searchResultsFromDataBase
    ∧ (clearFilters s).availableFilters = s.availableFilters
    ∧ (clearFilters s).searchResultsFromDataBase = s.searchResultsFromDataBase
    ∧ (handleFilterChange s (FilterUpdate.minScore minScore)).filters
        = { category := s.filters.category, author := s.filters.author,
            sortBy := s.filters.sortBy, minScore := minScore }
    ∧ (handleFilterChange s (FilterUpdate.category category)).filters
        = { category := category, author := s.filters.author,
            sortBy := s.filters.sortBy, minScore := s.filters.minScore }
    ∧ (handleFilterChange s (FilterUpdate.author author)).filters
        = { category := s.filters.category, author := author,
            sortBy := s.filters.sortBy, minScore := s.filters.minScore }
    ∧ (handleFilterChange s (FilterUpdate.sortBy sortBy)).filters
        = { category := s.filters.category, author := s.filters.author,
            sortBy := sortBy, minScore := s.filters.minScore } :=
  ⟨rfl, rfl, rfl, rfl, rfl, rfl, rfl, rfl⟩

/-! ## Enter on a blank query, and the form -/

/-- C26. With the selection index −1 and a query text that is empty or white space only, Enter
and a click on the search button make no navigation and leave the state as it is. -/
theorem enter_blank_query (s : NavBarState) (hsel : s.selectedSuggestion = -1)
    (hblank : ∀ c ∈ s.searchData, isWhiteSpace c = true) :
    handleKeyDown s Key.enter = (s, []) ∧ handleSearchBlog s = (s, []) := by
  have hb : handleSearchBlog s = (s, []) := by
    unfold handleSearchBlog
    rw [if_neg (by simp [trim_eq_nil_of_blank s.searchData hblank])]
  have hn : ¬ s.selectedSuggestion > -1 := by omega
  refine ⟨?_, hb⟩
  simp only [handleKeyDown, if_neg hn, hb]

/-- The witness of C26: Enter on a query text of two spaces with no candidate selected. -/
theorem enter_blank_query_witness :
    (({ exampleNavBarState with selectedSuggestion := -1, searchData := [' ', ' '] }
        : NavBarState).selectedSuggestion = -1
      ∧ ∀ c ∈ ({ exampleNavBarState with selectedSuggestion := -1, searchData := [' ', ' '] }
        : NavBarState).searchData, isWhiteSpace c = true)
    ∧ handleKeyDown
        { exampleNavBarState with selectedSuggestion := -1, searchData := [' ', ' '] } Key.enter
      = ({ exampleNavBarState with selectedSuggestion := -1, searchData := [' ', ' '] }, []) :=
  ⟨⟨rfl, by decide⟩,
    (enter_blank_query
      { exampleNavBarState with selectedSuggestion := -1, searchData := [' ', ' '] } rfl
      (by decide)).1⟩

/-- C27. `validateForm` returns true exactly when title, author, content and image URL are not
blank after trimming, date and category are not empty and at least one tag is selected. The
errors it reports are the error of the first field that fails, in the order title, author, date,
category, content, tags, image URL: one error when it returns false, none when it returns
true. -/
theorem validateForm_spec (form : BlogForm) :
    ((validateForm form).1 = true ↔
      (trim form.title ≠ [] ∧ trim form.author ≠ [] ∧ form.date ≠ [] ∧ form.category ≠ []
        ∧ trim form.content ≠ [] ∧ form.tags ≠ [] ∧ trim form.imageUrl ≠ []))
    ∧ (validateForm form).2
        = (((fieldChecks form).find? (fun check => !check.1)).map (fun check => check.2)).toList
    ∧ (validateForm form).2.length = (if (validateForm form).1 = true then 0 else 1) := by
  have htags : form.tags.length = 0 ↔ form.tags = [] := List.length_eq_zero
  unfold validateForm fieldChecks
  split_ifs with h1 h2 h3 h4 h5 h6 h7 <;>
    simp_all [List.find?]

/-! ## The order of the steps of the pipeline -/

section SortCommute

variable {α : Type} (cmp : α → α → Option ℚ)

/-- Filtering after an insertion into a sorted list is inserting into the filtered list, when
the comparator is total and transitive on the elements at hand. -/
theorem filter_sortInsert_comm (P : α → Prop)
    (htr : ∀ a b c, P a → P b → P c → sortCompare cmp a b ≤ 0 → sortCompare cmp b c ≤ 0 →
      sortCompare cmp a c ≤ 0)
    (p : α → Bool) (x : α) (l : List α) (hx : P x) (hl : ∀ y ∈ l, P y)
    (hs : l.Pairwise (fun a b => sortCompare cmp a b ≤ 0)) :
    (sortInsert cmp x l).filter p
      = if p x = true then sortInsert cmp x (l.filter p) else l.filter p := by
  induction l with
  | nil =>
    by_cases hpx : p x = true <;> simp [sortInsert, hpx]
  | cons y ys ih =>
    have hy : P y := hl y (List.mem_cons_self _ _)
    have hys : ∀ z ∈ ys, P z := fun z hz => hl z (List.mem_cons_of_mem _ hz)
    rw [List.pairwise_cons] at hs
    have ih' := ih hys hs.2
    by_cases hxy : sortCompare cmp x y ≤ 0
    · have hins : sortInsert cmp x (y :: ys) = x :: y :: ys := by
        simp only [sortInsert, if_pos hxy]
      rw [hins]
      by_cases hpx : p x = true
      · rw [if_pos hpx, List.filter_cons_of_pos hpx]
        by_cases hpy : p y = true
        · rw [List.filter_cons_of_pos hpy]
          simp only [sortInsert, if_pos hxy]
        · rw [List.filter_cons_of_neg hpy]
          symm
          apply sortInsert_eq_cons
          intro z hz
          have hzmem : z ∈ ys.filter p := List.mem_of_mem_head? hz
          have hzys : z ∈ ys := (List.mem_filter.1 hzmem).1
          exact htr x y z hx hy (hys z hzys) hxy (hs.1 z hzys)
      · rw [if_neg hpx, List.filter_cons_of_neg hpx]
    · have hins : sortInsert cmp x (y :: ys) = y :: sortInsert cmp x ys := by
        simp only [sortInsert, if_neg hxy]
      rw [hins]
      by_cases hpy : p y = true
      · rw [List.filter_cons_of_pos hpy, List.filter_cons_of_pos hpy, ih']
        by_cases hpx : p x = true
        · rw [if_pos hpx, if_pos hpx]
          simp only [sortInsert, if_neg hxy]
        · rw [if_neg hpx, if_neg hpx]
      · rw [List.filter_cons_of_neg hpy, List.filter_cons_of_neg hpy, ih']

/-- Filtering a sorted list is sorting the filtered list, when the comparator is total and
transitive on the elements of the list. -/
theorem filter_arraySort_comm (P : α → Prop)
    (htot : ∀ a b, P a → P b → ¬ sortCompare cmp a b ≤ 0 → sortCompare cmp b a ≤ 0)
    (htr : ∀ a b c, P a → P b → P c → sortCompare cmp a b ≤ 0 → sortCompare cmp b c ≤ 0 →
      sortCompare cmp a c ≤ 0)
    (p : α → Bool) (l : List α) (hl : ∀ y ∈ l, P y) :
    (arraySort cmp l).filter p = arraySort cmp (l.filter p) := by
  induction l with
  | nil => rfl
  | cons x xs ih =>
    have hx : P x := hl x (List.mem_cons_self _ _)
    have hxs : ∀ z ∈ xs, P z := fun z hz => hl z (List.mem_cons_of_mem _ hz)
    have hsorted := arraySort_pairwise cmp P htot htr xs hxs
    have hP : ∀ y ∈ arraySort cmp xs, P y := fun y hy => hxs y ((mem_arraySort cmp).1 hy)
    simp only [arraySort]
    rw [filter_sortInsert_comm cmp P htr p x _ hx hP hsorted, ih hxs]
    by_cases hpx : p x = true
    · rw [if_pos hpx, List.filter_cons_of_pos hpx]
      rfl
    · rw [if_neg hpx, List.filter_cons_of_neg hpx]

end SortCommute

/-- Filtering commutes with the sort of the pipeline: always in `relevance` mode, and in `recent`
mode when every creation date is valid. -/
theorem sortStage_filter_comm (c : FilterCriteria) (p : SearchResultItem → Bool)
    (l : List SearchResultItem)
    (hvalid : c.sortBy = "recent" → ∀ x ∈ l, x.createdAt.isSome = true) :
    (sortStage c l).filter p = sortStage c (l.filter p) := by
  unfold sortStage
  split
  · exact filter_arraySort_comm _ (fun _ => True)
      (by
        intro a b _ _ h
        rw [sortCompare_relevance] at *
        linarith)
      (by
        intro a b d _ _ _ h1 h2
        rw [sortCompare_relevance] at *
        linarith)
      p l (fun _ _ => trivial)
  · split
    · rename_i hrecent
      have hget : ∀ x : SearchResultItem, x.createdAt.isSome = true →
          ∃ t, x.createdAt = some t := fun x hx => Option.isSome_iff_exists.1 hx
      exact filter_arraySort_comm _ (fun x => x.createdAt.isSome = true)
        (fun a b _ _ h => sortCompare_recent_total a b h)
        (by
          intro a b d ha hb hd h1 h2
          obtain ⟨ta, ha⟩ := hget a ha
          obtain ⟨tb, hb⟩ := hget b hb
          obtain ⟨td, hd⟩ := hget d hd
          rw [sortCompare_recent_valid a b ta tb ha hb] at h1
          rw [sortCompare_recent_valid b d tb td hb hd] at h2
          rw [sortCompare_recent_valid a d ta td ha hd]
          linarith)
        p l (hvalid hrecent)
    · rfl

theorem PipelineStep.run_sort (c : FilterCriteria) (l : List SearchResultItem) :
    PipelineStep.sort.run c l = sortStage c l := rfl

theorem PipelineStep.run_filter (c : FilterCriteria) (step : PipelineStep)
    (hstep : step ≠ PipelineStep.sort) (l : List SearchResultItem) :
    step.run c l = l.filter (step.keeps c) := by
  cases step with
  | minScore =>
    by_cases h : c.minScore > 0
    · simp only [PipelineStep.run, if_pos h]
      apply List.filter_congr
      intro x _
      simp [PipelineStep.keeps, h]
    · simp only [PipelineStep.run, if_neg h]
      symm
      apply List.filter_eq_self.2
      intro x _
      simp [PipelineStep.keeps, h]
  | category =>
    by_cases h : c.category = "all"
    · simp only [PipelineStep.run, h, ne_eq, not_true_eq_false, if_false]
      symm
      apply List.filter_eq_self.2
      intro x _
      simp [PipelineStep.keeps, h]
    · simp only [PipelineStep.run, ne_eq, h, not_false_eq_true, if_true]
      apply List.filter_congr
      intro x _
      simp [PipelineStep.keeps, h]
  | author =>
    by_cases h : c.author = "all"
    · simp only [PipelineStep.run, h, ne_eq, not_true_eq_false, if_false]
      symm
      apply List.filter_eq_self.2
      intro x _
      simp [PipelineStep.keeps, h]
    · simp only [PipelineStep.run, ne_eq, h, not_false_eq_true, if_true]
      apply List.filter_congr
      intro x _
      simp [PipelineStep.keeps, h]
  | sort => exact absurd rfl hstep

theorem runSteps_pipelineOrder (c : FilterCriteria) (results : List SearchResultItem) :
    runSteps c pipelineOrder results = applyFilters results c := rfl

theorem runSteps_concat (c : FilterCriteria) (steps : List PipelineStep) (step : PipelineStep)
    (results : List SearchResultItem) :
    runSteps c (steps ++ [step]) results = step.run c (runSteps c steps results) := by
  unfold runSteps
  rw [List.foldl_append]
  rfl

/-- Any sequence of steps filters by the predicates of its steps and, when it holds the sort,
sorts the items that pass; in `recent` mode this needs every creation date to be valid. -/
theorem runSteps_eq (c : FilterCriteria) (results : List SearchResultItem)
    (hvalid : c.sortBy = "recent" → ∀ x ∈ results, x.createdAt.isSome = true)
    (steps : List PipelineStep) :
    runSteps c steps results
      = if PipelineStep.sort ∈ steps then
          sortStage c (results.filter (fun x => steps.all (fun step => step.keeps c x)))
        else results.filter (fun x => steps.all (fun step => step.keeps c x)) := by
  induction steps using List.reverseRecOn with
  | nil =>
    simp [runSteps]
  | append_singleton steps step ih =>
    rw [runSteps_concat, ih]
    have hvalid' : ∀ q : SearchResultItem → Bool,
        c.sortBy = "recent" → ∀ x ∈ results.filter q, x.createdAt.isSome = true :=
      fun q h x hx => hvalid h x (List.mem_filter.1 hx).1
    by_cases hstep : step = PipelineStep.sort
    · subst hstep
      have hall : (fun x => (steps ++ [PipelineStep.sort]).all (fun step => step.keeps c x))
          = (fun x => steps.all (fun step => step.keeps c x)) := by
        funext x
        simp [PipelineStep.keeps]
      have hin : PipelineStep.sort ∈ steps ++ [PipelineStep.sort] := by simp
      rw [if_pos hin, hall, PipelineStep.run_sort]
      by_cases hs : PipelineStep.sort ∈ steps
      · rw [if_pos hs]
        exact sortStage_idem c _
      · rw [if_neg hs]
    · have hall : ∀ x, (steps ++ [step]).all (fun st => st.keeps c x)
          = (step.keeps c x && steps.all (fun st => st.keeps c x)) := by
        intro x
        simp [Bool.and_comm]
      have hmem : PipelineStep.sort ∈ steps ++ [step] ↔ PipelineStep.sort ∈ steps := by
        simp [Ne.symm hstep]
      rw [PipelineStep.run_filter c step hstep]
      by_cases hs : PipelineStep.sort ∈ steps
      · rw [if_pos hs, if_pos (hmem.2 hs), sortStage_filter_comm c _ _ (hvalid' _),
          List.filter_filter]
        congr 1
        exact List.filter_congr (fun x _ => (hall x).symm)
      · rw [if_neg hs, if_neg (fun h => hs (hmem.1 h)), List.filter_filter]
        exact List.filter_congr (fun x _ => (hall x).symm)

/-- With valid creation dates, or outside the `recent` mode, the four steps give the output of
`applyFilters` in whatever order they are applied. -/
theorem runSteps_perm (c : FilterCriteria) (results : List SearchResultItem)
    (hvalid : c.sortBy = "recent" → ∀ x ∈ results, x.createdAt.isSome = true)
    (order : List PipelineStep) (horder : order.Perm pipelineOrder) :
    runSteps c order results = applyFilters results c := by
  rw [runSteps_eq c results hvalid order, applyFilters_eq]
  have hsort : PipelineStep.sort ∈ order := horder.mem_iff.2 (by decide)
  rw [if_pos hsort]
  congr 1
  apply List.filter_congr
  intro x _
  have hiff : (order.all (fun step => step.keeps c x) = true)
      ↔ (pipelineOrder.all (fun step => step.keeps c x) = true) := by
    simp only [List.all_eq_true]
    exact ⟨fun h step hs => h step (horder.mem_iff.2 hs),
      fun h step hs => h step (horder.mem_iff.1 hs)⟩
  have hpasses : pipelineOrder.all (fun step => step.keeps c x) = passes c x := by
    simp [pipelineOrder, PipelineStep.keeps, passes, Bool.and_assoc]
  rw [← hpasses]
  exact Bool.eq_iff_iff.2 hiff

/-- The example behind C25: with the criteria "category Herbs, newest first" and a result of
another category whose date does not parse between two Herbs results, `applyFilters` shows the
newer Herbs result first, and the sort applied before the filters leaves the older one first. -/
theorem undated_sort_first :
    (applyFilters undatedResults recentHerbs).map (fun item => item._id) = ["3", "1"]
    ∧ (runSteps recentHerbs sortFirstOrder undatedResults).map (fun item => item._id)
        = ["1", "3"] := by
  constructor
  · simp [applyFilters, recentHerbs, undatedResults, arraySort, sortInsert, sortCompare,
      dateDiff]
  · simp [runSteps, sortFirstOrder, PipelineStep.run, recentHerbs, undatedResults, arraySort,
      sortInsert, sortCompare, dateDiff]

/-- C25. There are a result set, criteria and an order of the four steps, different from the
order of `applyFilters`, that give a visible sequence different from the output of
`applyFilters`, while the steps in the order of `applyFilters` give its output. -/
theorem pipeline_order_matters :
    ∃ (results : List SearchResultItem) (c : FilterCriteria) (order : List PipelineStep),
      order.Perm pipelineOrder
      ∧ order ≠ pipelineOrder
      ∧ runSteps c pipelineOrder results = applyFilters results c
      ∧ runSteps c order results ≠ applyFilters results c := by
  refine ⟨undatedResults, recentHerbs, sortFirstOrder, by decide, by decide, rfl, ?_⟩
  intro h
  have hids := congrArg (List.map (fun item : SearchResultItem => item._id)) h
  rw [undated_sort_first.1, undated_sort_first.2] at hids
  exact absurd hids (by decide)

/-! ## The search box: a blank query -/

theorem NavBar.rerender_sent (before : NavBarState) (w : NavBar) :
    (NavBar.rerender before w).sent = w.sent := by
  unfold NavBar.rerender
  split <;> rfl

theorem NavBar.rerender_timers (before : NavBarState) (w : NavBar) :
    (NavBar.rerender before w).timers = w.timers := by
  unfold NavBar.rerender
  split <;> rfl

/-- C19 as stated fails: right after the keystroke that makes the query blank, at time 500, the
two candidates are still the candidates and ArrowDown selects the first of them; what the
keystroke has done is to set a timer for time 800, and the candidates are emptied, without a
request, when that timer fires. -/
theorem NavBar.blank_keystroke_keeps_candidates :
    (NavBar.initial.run blankKeystrokeTrace).state.searchData = [' ']
    ∧ (NavBar.initial.run blankKeystrokeTrace).state.suggestions = exampleResults.take 2
    ∧ (NavBar.initial.run blankKeystrokeTrace).state.suggestions ≠ []
    ∧ (NavBar.initial.run blankKeystrokeTrace).timers
        = [{ id := 1, fireAt := 800, query := [' '] }]
    ∧ ((NavBar.initial.run blankKeystrokeTrace).step 600
        (NavBarEvent.keyDown Key.arrowDown)).state.selectedSuggestion = 0
    ∧ ((NavBar.initial.run blankKeystrokeTrace).step 800
        (NavBarEvent.timerFires 1)).state.suggestions = []
    ∧ ((NavBar.initial.run blankKeystrokeTrace).step 800
        (NavBarEvent.timerFires 1)).sent.map (fun request => request.searchData)
        = ["a".toList] := by
  refine ⟨by decide, by decide, by decide, by decide, by decide, by decide, by decide⟩

/-- C19, amended. A keystroke that makes the query empty or white space only does not clear the
candidates and posts no request: it sets a timer for 300 units later, like every keystroke. When
a timer with such a query fires, no request is posted and the candidates are set to the empty
list, whatever they were. -/
theorem NavBar.blank_query_cleared_by_timer (w : NavBar) (now : Nat) (value : List Char)
    (hblank : ∀ c ∈ value, isWhiteSpace c = true) :
    (w.change now value).state.suggestions = w.state.suggestions
    ∧ (w.change now value).sent = w.sent
    ∧ (w.change now value).inFlight = w.inFlight
    ∧ ({ id := w.nextTimer, fireAt := now + debounceWait, query := value } : Timer)
        ∈ (w.change now value).timers
    ∧ (∀ (later : NavBar) (time id : Nat) (timer : Timer),
        later.timers.find? (fun t => decide (t.id = id)) = some timer → timer.query = value →
          (later.timerFires time id).state.suggestions = []
          ∧ (later.timerFires time id).sent = later.sent
          ∧ (later.timerFires time id).inFlight = later.inFlight) := by
  refine ⟨?_, ?_, ?_, ?_, ?_⟩
  · unfold NavBar.change
    rw [NavBar.rerender_state]
    rfl
  · unfold NavBar.change
    rw [NavBar.rerender_sent]
  · unfold NavBar.change
    rw [NavBar.rerender_inFlight]
  · unfold NavBar.change
    rw [NavBar.rerender_timers]
    simp
  · intro later time id timer hfind hquery
    have hfetch : fetchSuggestions later.state timer.query
        = ({ later.state with suggestions := [] }, none) := by
      unfold fetchSuggestions
      rw [if_pos (trim_eq_nil_of_blank timer.query (hquery ▸ hblank))]
    unfold NavBar.timerFires
    simp only [hfind, hfetch]
    rw [NavBar.rerender_state, NavBar.rerender_sent, NavBar.rerender_inFlight]
    exact ⟨rfl, rfl, rfl⟩

/-- The witness of C19: the keystroke that replaces the query by a space, with two candidates on
display. -/
theorem NavBar.blank_query_cleared_by_timer_witness :
    (∀ c ∈ [' '], isWhiteSpace c = true)
    ∧ ((NavBar.initial.run twoCandidatesTrace).change 500 [' ']).state.suggestions
        = (NavBar.initial.run twoCandidatesTrace).state.suggestions
    ∧ ((NavBar.initial.run twoCandidatesTrace).change 500 [' ']).sent
        = (NavBar.initial.run twoCandidatesTrace).sent :=
  ⟨by decide,
    (NavBar.blank_query_cleared_by_timer (NavBar.initial.run twoCandidatesTrace) 500 [' ']
      (by decide)).1,
    (NavBar.blank_query_cleared_by_timer (NavBar.initial.run twoCandidatesTrace) 500 [' ']
      (by decide)).2.1⟩

end Vatika
